import Mathlib

/-!
Shallow embedding of the multi-tenant Shopify sync engine
(server/services/shopify.js, server/services/scheduler.js,
server/routes/shopify.js) together with the store schema
(supabase migration: tables customers/orders/products with
UNIQUE(tenant_id, shopify_id)).

Modelling conventions:
- JavaScript objects arriving from the vendor API are structures whose
  possibly-absent fields are `Option`s.
- `uuidv4()` is modelled as a counter threaded through the run (`Sys.gen`);
  each call yields a fresh, previously unused string.
- `new Date().toISOString()` is modelled as a `time : String` parameter of
  a run; two distinct runs may pass distinct times.
- A supabase `.upsert([row], { onConflict: 'tenant_id,shopify_id',
  ignoreDuplicates: false })` is `upsertBy`: if a row with the same
  (tenant_id, shopify_id) exists it is overwritten with every supplied
  column (including the freshly generated `id`), else the row is appended.
- `console.log`, `console.error` and HTTP requests are modelled as an
  explicit event list (`Event`) returned alongside the state, so ordering
  claims ("X happens before Y", "Y is logged") are about that list.
- The vendor API's behaviour and the store backend's per-row upsert
  failures are an explicit environment (`Env`).
- A thrown-and-caught JS exception is modelled by the `Bool` "completed"
  component of the affected function's result.
-/

namespace Shopify

/-- JS `x || d` for a possibly absent string: both `undefined`/`null` and
the empty string are falsy. -/
def jsOrString (v : Option String) (d : String) : String :=
  match v with
  | none => d
  | some s => if s = "" then d else s

/-- JS `x || d` for a possibly absent count: `undefined` and `0` are falsy
(both give `d`; when the value is `0` the result `d = 0` coincides). -/
def jsOrNat (v : Option Nat) (d : Nat) : Nat :=
  match v with
  | none => d
  | some n => if n = 0 then d else n

/-- JS `x || d` for a possibly absent integer quantity. -/
def jsOrInt (v : Option Int) (d : Int) : Int :=
  match v with
  | none => d
  | some n => if n = 0 then d else n

/-- JS `parseFloat(x) || 0`: an absent or unparseable value parses to `NaN`
which is falsy, giving `0`; a parsed `0` is also falsy, giving `0` again.
The argument holds the parsed rational when the source string parses. -/
def parseFloatOr0 (v : Option ℚ) : ℚ :=
  match v with
  | none => 0
  | some q => q

/-- The modelled `uuidv4()`: the `n`-th fresh identifier of a run. -/
def uuid (n : Nat) : String := s!"uuid-{n}"

/-- Row of the `tenants` table (the columns the sync engine reads). -/
structure Tenant where
  id : String
  shop_domain : String
  access_token : String
deriving DecidableEq, Repr

/-- Raw customer object as returned by the vendor customers endpoint. -/
structure RawCustomer where
  id : Option Int
  first_name : Option String
  last_name : Option String
  email : Option String
  total_spent : Option ℚ
  orders_count : Option Nat
  created_at : String
deriving DecidableEq, Repr

/-- Raw product variant object. -/
structure RawVariant where
  price : Option ℚ
  inventory_quantity : Option Int
deriving DecidableEq, Repr

/-- Raw product object as returned by the vendor products endpoint. -/
structure RawProduct where
  id : Option Int
  title : String
  vendor : Option String
  product_type : Option String
  variants : List RawVariant
  created_at : String
deriving DecidableEq, Repr

/-- The customer sub-object a raw order may carry. -/
structure RawOrderCustomer where
  id : Int
deriving DecidableEq, Repr

/-- Raw order object as returned by the vendor orders endpoint. -/
structure RawOrder where
  id : Option Int
  customer : Option RawOrderCustomer
  total_price : Option ℚ
  currency : Option String
  financial_status : Option String
  created_at : String
deriving DecidableEq, Repr

/-- Row of the `customers` table. -/
structure CustomerRow where
  id : String
  tenant_id : String
  shopify_id : String
  first_name : String
  last_name : String
  email : String
  total_spent : ℚ
  orders_count : Nat
  created_at : String
  updated_at : String
deriving DecidableEq, Repr

/-- Row of the `products` table. -/
structure ProductRow where
  id : String
  tenant_id : String
  shopify_id : String
  title : String
  vendor : String
  product_type : String
  price : ℚ
  inventory_quantity : Int
  created_at : String
  updated_at : String
deriving DecidableEq, Repr

/-- Row of the `orders` table. -/
structure OrderRow where
  id : String
  tenant_id : String
  shopify_id : String
  customer_id : Option String
  total_price : ℚ
  currency : String
  order_status : String
  created_at : String
  updated_at : String
deriving DecidableEq, Repr

/-- The `customerData` object literal built in `syncCustomers`.
`none` models the `TypeError` thrown by `customer.id.toString()` when the
raw record carries no `id` (`uuidv4()` has already been evaluated at that
point, so the caller still consumes one fresh identifier). -/
def customerData (gen : Nat) (tenantId : String) (time : String)
    (c : RawCustomer) : Option CustomerRow :=
  match c.id with
  | none => none
  | some cid => some {
      id := uuid gen
      tenant_id := tenantId
      shopify_id := toString cid
      first_name := jsOrString c.first_name ""
      last_name := jsOrString c.last_name ""
      email := jsOrString c.email ""
      total_spent := parseFloatOr0 c.total_spent
      orders_count := jsOrNat c.orders_count 0
      created_at := c.created_at
      updated_at := time }

/-- The `productData` object literal built in `syncProducts`:
`const variant = product.variants[0]` is `variants.head?`, and
`parseFloat(variant?.price) || 0` / `variant?.inventory_quantity || 0`
read through the optional chain. -/
def productData (gen : Nat) (tenantId : String) (time : String)
    (p : RawProduct) : Option ProductRow :=
  match p.id with
  | none => none
  | some pid =>
    let variant := p.variants.head?
    some {
      id := uuid gen
      tenant_id := tenantId
      shopify_id := toString pid
      title := p.title
      vendor := jsOrString p.vendor ""
      product_type := jsOrString p.product_type ""
      price := parseFloatOr0 (variant.bind (fun v => v.price))
      inventory_quantity := jsOrInt (variant.bind (fun v => v.inventory_quantity)) 0
      created_at := p.created_at
      updated_at := time }

/-- The `orderData` object literal built in `syncOrders`:
`customer_id: order.customer ? order.customer.id.toString() : null`. -/
def orderData (gen : Nat) (tenantId : String) (time : String)
    (o : RawOrder) : Option OrderRow :=
  match o.id with
  | none => none
  | some oid => some {
      id := uuid gen
      tenant_id := tenantId
      shopify_id := toString oid
      customer_id := o.customer.map (fun c => toString c.id)
      total_price := parseFloatOr0 o.total_price
      currency := jsOrString o.currency "USD"
      order_status := jsOrString o.financial_status "pending"
      created_at := o.created_at
      updated_at := time }

/-- Supabase `.upsert([row], { onConflict: 'tenant_id,shopify_id',
ignoreDuplicates: false })`: an existing row with the same conflict key is
overwritten with every supplied column (postgres
`ON CONFLICT .. DO UPDATE SET` over the full payload, the generated `id`
included); otherwise the row is inserted. -/
def upsertBy {ρ : Type} (key : ρ → String × String) (store : List ρ)
    (row : ρ) : List ρ :=
  if store.any (fun r => decide (key r = key row)) then
    store.map (fun r => if key r = key row then row else r)
  else store ++ [row]

/-- Conflict key of a customers-table row. -/
def keyC (r : CustomerRow) : String × String := (r.tenant_id, r.shopify_id)

/-- Conflict key of a products-table row. -/
def keyP (r : ProductRow) : String × String := (r.tenant_id, r.shopify_id)

/-- Conflict key of an orders-table row. -/
def keyO (r : OrderRow) : String × String := (r.tenant_id, r.shopify_id)

/-- Entity kinds the three reconcilers handle. -/
inductive EntityKind
  | customer
  | product
  | order
deriving DecidableEq, Repr

/-- Observable steps of a run: HTTP calls against the vendor API, store
writes, and the log lines of `shopify.js` / `scheduler.js`. -/
inductive Event
  | connTest (ok : Bool)
  | startSync (tenantId : String)
  | fetchAttempt (kind : EntityKind) (ok : Bool)
  | write (kind : EntityKind) (tenant_id : String) (shopify_id : String)
  | upsertError (kind : EntityKind) (shopify_id : String)
  | syncedCount (kind : EntityKind) (n : Nat)
  | syncFailedLog (kind : EntityKind)
  | tenantSyncFailed (tenantId : String)
deriving DecidableEq, Repr

/-- Environment of one tenant's sync: what the vendor API answers for the
tenant's domain and credential, and which individual upserts the store
backend rejects (by entity kind, tenant id and external id). -/
structure Env where
  connTestOk : Bool
  custFetch : Except Unit (List RawCustomer)
  prodFetch : Except Unit (List RawProduct)
  ordFetch : Except Unit (List RawOrder)
  upsertFails : EntityKind → String → String → Bool

/-- The three entity tables of the store. -/
structure Store where
  customers : List CustomerRow
  products : List ProductRow
  orders : List OrderRow
deriving DecidableEq, Repr

/-- Mutable state threaded through a run: the store plus the uuid
generator counter. -/
structure Sys where
  store : Store
  gen : Nat
deriving DecidableEq, Repr

/-- The `for (const customer of customers)` loop of `syncCustomers`.
Returns the state, the events of the loop, and `true` iff the loop ran to
completion; a record with no vendor `id` makes `customer.id.toString()`
throw, aborting the loop (remaining records are not processed). A failed
upsert is logged and skipped, the loop continues. -/
def runCustomerLoop (env : Env) (t : Tenant) (time : String) :
    List RawCustomer → Sys → Sys × List Event × Bool
  | [], s => (s, [], true)
  | c :: rest, s =>
    match customerData s.gen t.id time c with
    | none => ({ s with gen := s.gen + 1 }, [], false)
    | some row =>
      if env.upsertFails .customer row.tenant_id row.shopify_id then
        let r := runCustomerLoop env t time rest { s with gen := s.gen + 1 }
        (r.1, Event.upsertError .customer row.shopify_id :: r.2.1, r.2.2)
      else
        let s2 : Sys :=
          { store := { s.store with customers := upsertBy keyC s.store.customers row }
            gen := s.gen + 1 }
        let r := runCustomerLoop env t time rest s2
        (r.1, Event.write .customer row.tenant_id row.shopify_id :: r.2.1, r.2.2)

/-- The `for (const product of products)` loop of `syncProducts`. -/
def runProductLoop (env : Env) (t : Tenant) (time : String) :
    List RawProduct → Sys → Sys × List Event × Bool
  | [], s => (s, [], true)
  | p :: rest, s =>
    match productData s.gen t.id time p with
    | none => ({ s with gen := s.gen + 1 }, [], false)
    | some row =>
      if env.upsertFails .product row.tenant_id row.shopify_id then
        let r := runProductLoop env t time rest { s with gen := s.gen + 1 }
        (r.1, Event.upsertError .product row.shopify_id :: r.2.1, r.2.2)
      else
        let s2 : Sys :=
          { store := { s.store with products := upsertBy keyP s.store.products row }
            gen := s.gen + 1 }
        let r := runProductLoop env t time rest s2
        (r.1, Event.write .product row.tenant_id row.shopify_id :: r.2.1, r.2.2)

/-- The `for (const order of orders)` loop of `syncOrders`. -/
def runOrderLoop (env : Env) (t : Tenant) (time : String) :
    List RawOrder → Sys → Sys × List Event × Bool
  | [], s => (s, [], true)
  | o :: rest, s =>
    match orderData s.gen t.id time o with
    | none => ({ s with gen := s.gen + 1 }, [], false)
    | some row =>
      if env.upsertFails .order row.tenant_id row.shopify_id then
        let r := runOrderLoop env t time rest { s with gen := s.gen + 1 }
        (r.1, Event.upsertError .order row.shopify_id :: r.2.1, r.2.2)
      else
        let s2 : Sys :=
          { store := { s.store with orders := upsertBy keyO s.store.orders row }
            gen := s.gen + 1 }
        let r := runOrderLoop env t time rest s2
        (r.1, Event.write .order row.tenant_id row.shopify_id :: r.2.1, r.2.2)

/-- `syncCustomers` of `shopify.js`: fetch the customers page, run the
upsert loop, and log either the `Synced N customers` count or — when the
fetch or a record mapping threw — the `Customer sync failed` line. Every
exception is caught here; nothing escapes to the caller. -/
def syncCustomers (env : Env) (t : Tenant) (time : String) (s : Sys) :
    Sys × List Event :=
  match env.custFetch with
  | .error _ => (s, [Event.fetchAttempt .customer false, Event.syncFailedLog .customer])
  | .ok cs =>
    match runCustomerLoop env t time cs s with
    | (s', es, true) =>
      (s', Event.fetchAttempt .customer true :: es ++ [Event.syncedCount .customer cs.length])
    | (s', es, false) =>
      (s', Event.fetchAttempt .customer true :: es ++ [Event.syncFailedLog .customer])

/-- `syncProducts` of `shopify.js`. -/
def syncProducts (env : Env) (t : Tenant) (time : String) (s : Sys) :
    Sys × List Event :=
  match env.prodFetch with
  | .error _ => (s, [Event.fetchAttempt .product false, Event.syncFailedLog .product])
  | .ok ps =>
    match runProductLoop env t time ps s with
    | (s', es, true) =>
      (s', Event.fetchAttempt .product true :: es ++ [Event.syncedCount .product ps.length])
    | (s', es, false) =>
      (s', Event.fetchAttempt .product true :: es ++ [Event.syncFailedLog .product])

/-- `syncOrders` of `shopify.js`. -/
def syncOrders (env : Env) (t : Tenant) (time : String) (s : Sys) :
    Sys × List Event :=
  match env.ordFetch with
  | .error _ => (s, [Event.fetchAttempt .order false, Event.syncFailedLog .order])
  | .ok os =>
    match runOrderLoop env t time os s with
    | (s', es, true) =>
      (s', Event.fetchAttempt .order true :: es ++ [Event.syncedCount .order os.length])
    | (s', es, false) =>
      (s', Event.fetchAttempt .order true :: es ++ [Event.syncFailedLog .order])

/-- `syncShopifyData` of `shopify.js`: log the start line, look the tenant
up (`.single()`; a missing tenant throws `Tenant not found`, which
escapes to the caller — the `Bool` is `false`), then run the three
reconcilers sequentially: customers, products, orders. -/
def syncShopifyData (env : Env) (tenantsTable : List Tenant)
    (tenantId : String) (time : String) (s : Sys) : Sys × List Event × Bool :=
  match tenantsTable.find? (fun t => decide (t.id = tenantId)) with
  | none => (s, [Event.startSync tenantId], false)
  | some t =>
    let rc := syncCustomers env t time s
    let rp := syncProducts env t time rc.1
    let ro := syncOrders env t time rp.1
    (ro.1, Event.startSync tenantId :: rc.2 ++ rp.2 ++ ro.2, true)

/-- Responses of the manual-sync route `router.post('/sync')`. -/
inductive ManualResponse
  | ok
  | tenantNotFound
  | connectionFailed
  | syncFailed
deriving DecidableEq, Repr

/-- `router.post('/sync')` of `routes/shopify.js`: look the tenant up
(404 when absent), test the connection (400 on failure, before any fetch
or write), then run `syncShopifyData`; an escaping exception yields the
500 `Sync failed` response. -/
def manualSync (env : Env) (tenantsTable : List Tenant) (tenantId : String)
    (time : String) (s : Sys) : Sys × List Event × ManualResponse :=
  match tenantsTable.find? (fun t => decide (t.id = tenantId)) with
  | none => (s, [], .tenantNotFound)
  | some _ =>
    if env.connTestOk then
      match syncShopifyData env tenantsTable tenantId time s with
      | (s', es, true) => (s', Event.connTest true :: es, .ok)
      | (s', es, false) => (s', Event.connTest true :: es, .syncFailed)
    else (s, [Event.connTest false], .connectionFailed)

/-- The `for (const tenant of tenants)` loop of `runScheduledSync` in
`scheduler.js`: each enumerated tenant id is synced in turn; an exception
escaping `syncShopifyData` is caught and logged with the tenant id, and
the loop continues with the remaining tenants. -/
def runTenantLoop (envOf : String → Env) (tenantsTable : List Tenant)
    (time : String) : List String → Sys → Sys × List Event
  | [], s => (s, [])
  | tid :: rest, s =>
    match syncShopifyData (envOf tid) tenantsTable tid time s with
    | (s', es, ok) =>
      let tail := runTenantLoop envOf tenantsTable time rest s'
      (tail.1, (es ++ if ok then [] else [Event.tenantSyncFailed tid]) ++ tail.2)

/-- `runScheduledSync` of `scheduler.js`: enumerate tenant ids from the
store (on enumeration failure, log and return) and run the per-tenant
loop. No connection test is performed on this path. -/
def runScheduledSync (envOf : String → Env)
    (enumerated : Except Unit (List String)) (tenantsTable : List Tenant)
    (time : String) (s : Sys) : Sys × List Event :=
  match enumerated with
  | .error _ => (s, [])
  | .ok ids => runTenantLoop envOf tenantsTable time ids s

/-- Recognizer for connection-test events. -/
def isConnTest : Event → Bool
  | .connTest _ => true
  | _ => false

/-- Recognizer for vendor fetch events. -/
def isFetch : Event → Bool
  | .fetchAttempt _ _ => true
  | _ => false

/-- Recognizer for store write events. -/
def isWrite : Event → Bool
  | .write _ _ _ => true
  | _ => false

/-! Concrete fixtures used by witnesses and counterexamples, following the
scenario of the specification: tenant `d-tenant`, customers `1` and `2`,
product `9` with one variant (price 12.50, quantity 3), order `100` for
customer `1`. -/

/-- Fixture tenant. -/
def tenantD : Tenant := { id := "d-tenant", shop_domain := "d", access_token := "k" }

/-- Store backend that accepts every upsert. -/
def noFailOracle : EntityKind → String → String → Bool := fun _ _ _ => false

/-- Fixture raw customer with external id 1. -/
def rawCust1 : RawCustomer :=
  { id := some 1
    first_name := some "Ann"
    last_name := none
    email := some "ann@d"
    total_spent := some (mkRat 25 2)
    orders_count := some 2
    created_at := "2024-01-01" }

/-- Fixture raw customer with external id 2. -/
def rawCust2 : RawCustomer :=
  { id := some 2
    first_name := none
    last_name := none
    email := none
    total_spent := none
    orders_count := none
    created_at := "2024-01-02" }

/-- Fixture malformed raw customer: the vendor `id` field is absent, so
`customer.id.toString()` throws. -/
def rawCustBad : RawCustomer :=
  { id := none
    first_name := some "Bad"
    last_name := none
    email := none
    total_spent := none
    orders_count := none
    created_at := "2024-01-03" }

/-- Fixture variant: price 12.50, inventory 3. -/
def rawVariant1 : RawVariant := { price := some (mkRat 25 2), inventory_quantity := some 3 }

/-- Fixture raw product with external id 9 and one variant. -/
def rawProd9 : RawProduct :=
  { id := some 9
    title := "Widget"
    vendor := some "Acme"
    product_type := some "toys"
    variants := [rawVariant1]
    created_at := "2024-01-01" }

/-- Fixture raw product with an empty variants list. -/
def rawProdNoVariants : RawProduct :=
  { id := some 10
    title := "Bare"
    vendor := none
    product_type := none
    variants := []
    created_at := "2024-01-01" }

/-- Fixture raw order with external id 100 placed by customer 1. -/
def rawOrder100 : RawOrder :=
  { id := some 100
    customer := some { id := 1 }
    total_price := some (mkRat 25 2)
    currency := some "USD"
    financial_status := some "paid"
    created_at := "2024-01-05" }

/-- Fixture raw order carrying no customer object. -/
def rawOrderNoCust : RawOrder :=
  { id := some 101
    customer := none
    total_price := some 7
    currency := none
    financial_status := none
    created_at := "2024-01-06" }

/-- Fixture vendor environment for the specification scenario. -/
def envD : Env :=
  { connTestOk := true
    custFetch := .ok [rawCust1, rawCust2]
    prodFetch := .ok [rawProd9]
    ordFetch := .ok [rawOrder100]
    upsertFails := noFailOracle }

/-- Empty initial state. -/
def sysEmpty : Sys := { store := { customers := [], products := [], orders := [] }, gen := 0 }

/-! Basic loop lemmas. -/

/-- A customers batch in which every record carries a vendor id is
processed to completion. -/
lemma runCustomerLoop_completes (env : Env) (t : Tenant) (tm : String)
    (cs : List RawCustomer) : ∀ s : Sys, (∀ c ∈ cs, (c.id).isSome = true) →
    (runCustomerLoop env t tm cs s).2.2 = true := by
  induction cs with
  | nil => intro s _; rfl
  | cons c rest ih =>
    intro s h
    obtain ⟨n, hn⟩ := Option.isSome_iff_exists.mp (h c (List.mem_cons_self c rest))
    have hrest : ∀ c ∈ rest, (c.id).isSome = true :=
      fun c hc => h c (List.mem_cons_of_mem _ hc)
    simp only [runCustomerLoop, customerData, hn]
    split
    · exact ih _ hrest
    · exact ih _ hrest

/-- A products batch in which every record carries a vendor id is
processed to completion. -/
lemma runProductLoop_completes (env : Env) (t : Tenant) (tm : String)
    (ps : List RawProduct) : ∀ s : Sys, (∀ p ∈ ps, (p.id).isSome = true) →
    (runProductLoop env t tm ps s).2.2 = true := by
  induction ps with
  | nil => intro s _; rfl
  | cons p rest ih =>
    intro s h
    obtain ⟨n, hn⟩ := Option.isSome_iff_exists.mp (h p (List.mem_cons_self p rest))
    have hrest : ∀ p ∈ rest, (p.id).isSome = true :=
      fun p hp => h p (List.mem_cons_of_mem _ hp)
    simp only [runProductLoop, productData, hn]
    split
    · exact ih _ hrest
    · exact ih _ hrest

/-- An orders batch in which every record carries a vendor id is
processed to completion. -/
lemma runOrderLoop_completes (env : Env) (t : Tenant) (tm : String)
    (os : List RawOrder) : ∀ s : Sys, (∀ o ∈ os, (o.id).isSome = true) →
    (runOrderLoop env t tm os s).2.2 = true := by
  induction os with
  | nil => intro s _; rfl
  | cons o rest ih =>
    intro s h
    obtain ⟨n, hn⟩ := Option.isSome_iff_exists.mp (h o (List.mem_cons_self o rest))
    have hrest : ∀ o ∈ rest, (o.id).isSome = true :=
      fun o ho => h o (List.mem_cons_of_mem _ ho)
    simp only [runOrderLoop, orderData, hn]
    split
    · exact ih _ hrest
    · exact ih _ hrest

/-- The orders upsert loop never reads the customers table: its effect on
the orders table is the same whatever the customers table holds. -/
lemma runOrderLoop_customers_independent (env : Env) (t : Tenant) (tm : String)
    (os : List RawOrder) : ∀ (s : Sys) (cl : List CustomerRow),
    (runOrderLoop env t tm os
        { s with store := { s.store with customers := cl } }).1.store.orders
      = (runOrderLoop env t tm os s).1.store.orders := by
  induction os with
  | nil => intro s cl; rfl
  | cons o rest ih =>
    intro s cl
    simp only [runOrderLoop]
    rcases ho : orderData s.gen t.id tm o with _ | row
    · simp only [ho]
    · simp only [ho]
      split
      · simpa using ih (Sys.mk s.store (s.gen + 1)) cl
      · simpa using ih (Sys.mk (Store.mk s.store.customers s.store.products
          (upsertBy keyO s.store.orders row)) (s.gen + 1)) cl

/-- A mapped customer row is owned by the tenant whose sync built it. -/
lemma customerData_tenant (g : Nat) (tid tm : String) (c : RawCustomer)
    (row : CustomerRow) (h : customerData g tid tm c = some row) :
    row.tenant_id = tid := by
  rcases hc : c.id with _ | n
  · simp [customerData, hc] at h
  · simp only [customerData, hc, Option.some.injEq] at h
    subst h; rfl

/-- A mapped product row is owned by the tenant whose sync built it. -/
lemma productData_tenant (g : Nat) (tid tm : String) (p : RawProduct)
    (row : ProductRow) (h : productData g tid tm p = some row) :
    row.tenant_id = tid := by
  rcases hp : p.id with _ | n
  · simp [productData, hp] at h
  · simp only [productData, hp, Option.some.injEq] at h
    subst h; rfl

/-- A mapped order row is owned by the tenant whose sync built it. -/
lemma orderData_tenant (g : Nat) (tid tm : String) (o : RawOrder)
    (row : OrderRow) (h : orderData g tid tm o = some row) :
    row.tenant_id = tid := by
  rcases ho : o.id with _ | n
  · simp [orderData, ho] at h
  · simp only [orderData, ho, Option.some.injEq] at h
    subst h; rfl

/-- Every event of the customers upsert loop is a write (owned by the
syncing tenant) or a per-record upsert error. -/
lemma runCustomerLoop_events (env : Env) (t : Tenant) (tm : String)
    (cs : List RawCustomer) : ∀ s : Sys, ∀ e ∈ (runCustomerLoop env t tm cs s).2.1,
    (∃ sid, e = Event.write .customer t.id sid) ∨
    (∃ sid, e = Event.upsertError .customer sid) := by
  induction cs with
  | nil => intro s e he; simp [runCustomerLoop] at he
  | cons c rest ih =>
    intro s e he
    simp only [runCustomerLoop] at he
    rcases hc : customerData s.gen t.id tm c with _ | row
    · rw [hc] at he; simp at he
    · rw [hc] at he
      have htid := customerData_tenant _ _ _ _ _ hc
      cases hf : env.upsertFails .customer row.tenant_id row.shopify_id <;>
        simp only [hf] at he
      · simp only [Bool.false_eq_true, if_false, List.mem_cons] at he
        rcases he with h | h
        · exact Or.inl ⟨row.shopify_id, by rw [h, htid]⟩
        · exact ih _ e h
      · simp only [if_true, List.mem_cons] at he
        rcases he with h | h
        · exact Or.inr ⟨row.shopify_id, h⟩
        · exact ih _ e h

/-- Every event of the products upsert loop is a write (owned by the
syncing tenant) or a per-record upsert error. -/
lemma runProductLoop_events (env : Env) (t : Tenant) (tm : String)
    (ps : List RawProduct) : ∀ s : Sys, ∀ e ∈ (runProductLoop env t tm ps s).2.1,
    (∃ sid, e = Event.write .product t.id sid) ∨
    (∃ sid, e = Event.upsertError .product sid) := by
  induction ps with
  | nil => intro s e he; simp [runProductLoop] at he
  | cons p rest ih =>
    intro s e he
    simp only [runProductLoop] at he
    rcases hp : productData s.gen t.id tm p with _ | row
    · rw [hp] at he; simp at he
    · rw [hp] at he
      have htid := productData_tenant _ _ _ _ _ hp
      cases hf : env.upsertFails .product row.tenant_id row.shopify_id <;>
        simp only [hf] at he
      · simp only [Bool.false_eq_true, if_false, List.mem_cons] at he
        rcases he with h | h
        · exact Or.inl ⟨row.shopify_id, by rw [h, htid]⟩
        · exact ih _ e h
      · simp only [if_true, List.mem_cons] at he
        rcases he with h | h
        · exact Or.inr ⟨row.shopify_id, h⟩
        · exact ih _ e h

/-- Every event of the orders upsert loop is a write (owned by the
syncing tenant) or a per-record upsert error. -/
lemma runOrderLoop_events (env : Env) (t : Tenant) (tm : String)
    (os : List RawOrder) : ∀ s : Sys, ∀ e ∈ (runOrderLoop env t tm os s).2.1,
    (∃ sid, e = Event.write .order t.id sid) ∨
    (∃ sid, e = Event.upsertError .order sid) := by
  induction os with
  | nil => intro s e he; simp [runOrderLoop] at he
  | cons o rest ih =>
    intro s e he
    simp only [runOrderLoop] at he
    rcases ho : orderData s.gen t.id tm o with _ | row
    · rw [ho] at he; simp at he
    · rw [ho] at he
      have htid := orderData_tenant _ _ _ _ _ ho
      cases hf : env.upsertFails .order row.tenant_id row.shopify_id <;>
        simp only [hf] at he
      · simp only [Bool.false_eq_true, if_false, List.mem_cons] at he
        rcases he with h | h
        · exact Or.inl ⟨row.shopify_id, by rw [h, htid]⟩
        · exact ih _ e h
      · simp only [if_true, List.mem_cons] at he
        rcases he with h | h
        · exact Or.inr ⟨row.shopify_id, h⟩
        · exact ih _ e h

/-- The customer reconciler's event list holds exactly one vendor fetch,
and it is the customers fetch. -/
lemma syncCustomers_filter_fetch (env : Env) (t : Tenant) (tm : String) (s : Sys) :
    ∃ b, ((syncCustomers env t tm s).2).filter isFetch
      = [Event.fetchAttempt .customer b] := by
  rcases henv : env.custFetch with _ | cs
  · exact ⟨false, by simp [syncCustomers, henv, isFetch, List.filter]⟩
  · refine ⟨true, ?_⟩
    rcases hr : runCustomerLoop env t tm cs s with ⟨s', es, b⟩
    have hes : ∀ e ∈ es, isFetch e = false := by
      intro e he
      have := runCustomerLoop_events env t tm cs s e (by rw [hr]; exact he)
      rcases this with ⟨sid, rfl⟩ | ⟨sid, rfl⟩ <;> rfl
    have hfil : es.filter isFetch = [] := List.filter_eq_nil_iff.mpr (by
      intro e he; simp [hes e he])
    cases b <;>
      simp [syncCustomers, henv, hr, List.filter_append, hfil, isFetch, List.filter]

/-- The product reconciler's event list holds exactly one vendor fetch,
and it is the products fetch. -/
lemma syncProducts_filter_fetch (env : Env) (t : Tenant) (tm : String) (s : Sys) :
    ∃ b, ((syncProducts env t tm s).2).filter isFetch
      = [Event.fetchAttempt .product b] := by
  rcases henv : env.prodFetch with _ | ps
  · exact ⟨false, by simp [syncProducts, henv, isFetch, List.filter]⟩
  · refine ⟨true, ?_⟩
    rcases hr : runProductLoop env t tm ps s with ⟨s', es, b⟩
    have hes : ∀ e ∈ es, isFetch e = false := by
      intro e he
      have := runProductLoop_events env t tm ps s e (by rw [hr]; exact he)
      rcases this with ⟨sid, rfl⟩ | ⟨sid, rfl⟩ <;> rfl
    have hfil : es.filter isFetch = [] := List.filter_eq_nil_iff.mpr (by
      intro e he; simp [hes e he])
    cases b <;>
      simp [syncProducts, henv, hr, List.filter_append, hfil, isFetch, List.filter]

/-- The order reconciler's event list holds exactly one vendor fetch,
and it is the orders fetch. -/
lemma syncOrders_filter_fetch (env : Env) (t : Tenant) (tm : String) (s : Sys) :
    ∃ b, ((syncOrders env t tm s).2).filter isFetch
      = [Event.fetchAttempt .order b] := by
  rcases henv : env.ordFetch with _ | os
  · exact ⟨false, by simp [syncOrders, henv, isFetch, List.filter]⟩
  · refine ⟨true, ?_⟩
    rcases hr : runOrderLoop env t tm os s with ⟨s', es, b⟩
    have hes : ∀ e ∈ es, isFetch e = false := by
      intro e he
      have := runOrderLoop_events env t tm os s e (by rw [hr]; exact he)
      rcases this with ⟨sid, rfl⟩ | ⟨sid, rfl⟩ <;> rfl
    have hfil : es.filter isFetch = [] := List.filter_eq_nil_iff.mpr (by
      intro e he; simp [hes e he])
    cases b <;>
      simp [syncOrders, henv, hr, List.filter_append, hfil, isFetch, List.filter]

/-- Every event the customer reconciler emits is its fetch, a write owned
by the syncing tenant, a per-record upsert error, its count line, or its
failure line. -/
lemma syncCustomers_events_shape (env : Env) (t : Tenant) (tm : String) (s : Sys) :
    ∀ e ∈ (syncCustomers env t tm s).2,
      (∃ b, e = Event.fetchAttempt .customer b) ∨
      (∃ sid, e = Event.write .customer t.id sid) ∨
      (∃ sid, e = Event.upsertError .customer sid) ∨
      (∃ n, e = Event.syncedCount .customer n) ∨
      e = Event.syncFailedLog .customer := by
  intro e he
  rcases henv : env.custFetch with _ | cs
  · simp only [syncCustomers, henv] at he
    rcases List.mem_cons.mp he with rfl | he
    · exact Or.inl ⟨false, rfl⟩
    · rcases List.mem_cons.mp he with rfl | he
      · exact Or.inr (Or.inr (Or.inr (Or.inr rfl)))
      · simp at he
  · rcases hr : runCustomerLoop env t tm cs s with ⟨s', es, b⟩
    have hloopEv := runCustomerLoop_events env t tm cs s
    rw [hr] at hloopEv
    have hmem : ∀ x, e = Event.fetchAttempt .customer true ∨ e ∈ es ∨ e = x →
        e = x ∨ (∃ b, e = Event.fetchAttempt .customer b) ∨
        (∃ sid, e = Event.write .customer t.id sid) ∨
        (∃ sid, e = Event.upsertError .customer sid) := by
      intro x hx
      rcases hx with rfl | hx | rfl
      · exact Or.inr (Or.inl ⟨true, rfl⟩)
      · rcases hloopEv e hx with ⟨sid, rfl⟩ | ⟨sid, rfl⟩
        · exact Or.inr (Or.inr (Or.inl ⟨sid, rfl⟩))
        · exact Or.inr (Or.inr (Or.inr ⟨sid, rfl⟩))
      · exact Or.inl rfl
    cases b
    · simp only [syncCustomers, henv, hr] at he
      have he' : e = Event.fetchAttempt .customer true ∨ e ∈ es
          ∨ e = Event.syncFailedLog .customer := by
        rcases List.mem_cons.mp he with rfl | he
        · exact Or.inl rfl
        · rcases List.mem_append.mp he with he | he
          · exact Or.inr (Or.inl he)
          · exact Or.inr (Or.inr (List.mem_singleton.mp he))
      rcases hmem _ he' with rfl | ⟨b, rfl⟩ | ⟨sid, rfl⟩ | ⟨sid, rfl⟩
      · exact Or.inr (Or.inr (Or.inr (Or.inr rfl)))
      · exact Or.inl ⟨b, rfl⟩
      · exact Or.inr (Or.inl ⟨sid, rfl⟩)
      · exact Or.inr (Or.inr (Or.inl ⟨sid, rfl⟩))
    · simp only [syncCustomers, henv, hr] at he
      have he' : e = Event.fetchAttempt .customer true ∨ e ∈ es
          ∨ e = Event.syncedCount .customer cs.length := by
        rcases List.mem_cons.mp he with rfl | he
        · exact Or.inl rfl
        · rcases List.mem_append.mp he with he | he
          · exact Or.inr (Or.inl he)
          · exact Or.inr (Or.inr (List.mem_singleton.mp he))
      rcases hmem _ he' with rfl | ⟨b, rfl⟩ | ⟨sid, rfl⟩ | ⟨sid, rfl⟩
      · exact Or.inr (Or.inr (Or.inr (Or.inl ⟨cs.length, rfl⟩)))
      · exact Or.inl ⟨b, rfl⟩
      · exact Or.inr (Or.inl ⟨sid, rfl⟩)
      · exact Or.inr (Or.inr (Or.inl ⟨sid, rfl⟩))

/-- Every event the product reconciler emits is its fetch, a write owned
by the syncing tenant, a per-record upsert error, its count line, or its
failure line. -/
lemma syncProducts_events_shape (env : Env) (t : Tenant) (tm : String) (s : Sys) :
    ∀ e ∈ (syncProducts env t tm s).2,
      (∃ b, e = Event.fetchAttempt .product b) ∨
      (∃ sid, e = Event.write .product t.id sid) ∨
      (∃ sid, e = Event.upsertError .product sid) ∨
      (∃ n, e = Event.syncedCount .product n) ∨
      e = Event.syncFailedLog .product := by
  intro e he
  rcases henv : env.prodFetch with _ | ps
  · simp only [syncProducts, henv] at he
    rcases List.mem_cons.mp he with rfl | he
    · exact Or.inl ⟨false, rfl⟩
    · rcases List.mem_cons.mp he with rfl | he
      · exact Or.inr (Or.inr (Or.inr (Or.inr rfl)))
      · simp at he
  · rcases hr : runProductLoop env t tm ps s with ⟨s', es, b⟩
    have hloopEv := runProductLoop_events env t tm ps s
    rw [hr] at hloopEv
    have hmem : ∀ x, e = Event.fetchAttempt .product true ∨ e ∈ es ∨ e = x →
        e = x ∨ (∃ b, e = Event.fetchAttempt .product b) ∨
        (∃ sid, e = Event.write .product t.id sid) ∨
        (∃ sid, e = Event.upsertError .product sid) := by
      intro x hx
      rcases hx with rfl | hx | rfl
      · exact Or.inr (Or.inl ⟨true, rfl⟩)
      · rcases hloopEv e hx with ⟨sid, rfl⟩ | ⟨sid, rfl⟩
        · exact Or.inr (Or.inr (Or.inl ⟨sid, rfl⟩))
        · exact Or.inr (Or.inr (Or.inr ⟨sid, rfl⟩))
      · exact Or.inl rfl
    cases b
    · simp only [syncProducts, henv, hr] at he
      have he' : e = Event.fetchAttempt .product true ∨ e ∈ es
          ∨ e = Event.syncFailedLog .product := by
        rcases List.mem_cons.mp he with rfl | he
        · exact Or.inl rfl
        · rcases List.mem_append.mp he with he | he
          · exact Or.inr (Or.inl he)
          · exact Or.inr (Or.inr (List.mem_singleton.mp he))
      rcases hmem _ he' with rfl | ⟨b, rfl⟩ | ⟨sid, rfl⟩ | ⟨sid, rfl⟩
      · exact Or.inr (Or.inr (Or.inr (Or.inr rfl)))
      · exact Or.inl ⟨b, rfl⟩
      · exact Or.inr (Or.inl ⟨sid, rfl⟩)
      · exact Or.inr (Or.inr (Or.inl ⟨sid, rfl⟩))
    · simp only [syncProducts, henv, hr] at he
      have he' : e = Event.fetchAttempt .product true ∨ e ∈ es
          ∨ e = Event.syncedCount .product ps.length := by
        rcases List.mem_cons.mp he with rfl | he
        · exact Or.inl rfl
        · rcases List.mem_append.mp he with he | he
          · exact Or.inr (Or.inl he)
          · exact Or.inr (Or.inr (List.mem_singleton.mp he))
      rcases hmem _ he' with rfl | ⟨b, rfl⟩ | ⟨sid, rfl⟩ | ⟨sid, rfl⟩
      · exact Or.inr (Or.inr (Or.inr (Or.inl ⟨ps.length, rfl⟩)))
      · exact Or.inl ⟨b, rfl⟩
      · exact Or.inr (Or.inl ⟨sid, rfl⟩)
      · exact Or.inr (Or.inr (Or.inl ⟨sid, rfl⟩))

/-- Every event the order reconciler emits is its fetch, a write owned
by the syncing tenant, a per-record upsert error, its count line, or its
failure line. -/
lemma syncOrders_events_shape (env : Env) (t : Tenant) (tm : String) (s : Sys) :
    ∀ e ∈ (syncOrders env t tm s).2,
      (∃ b, e = Event.fetchAttempt .order b) ∨
      (∃ sid, e = Event.write .order t.id sid) ∨
      (∃ sid, e = Event.upsertError .order sid) ∨
      (∃ n, e = Event.syncedCount .order n) ∨
      e = Event.syncFailedLog .order := by
  intro e he
  rcases henv : env.ordFetch with _ | os
  · simp only [syncOrders, henv] at he
    rcases List.mem_cons.mp he with rfl | he
    · exact Or.inl ⟨false, rfl⟩
    · rcases List.mem_cons.mp he with rfl | he
      · exact Or.inr (Or.inr (Or.inr (Or.inr rfl)))
      · simp at he
  · rcases hr : runOrderLoop env t tm os s with ⟨s', es, b⟩
    have hloopEv := runOrderLoop_events env t tm os s
    rw [hr] at hloopEv
    have hmem : ∀ x, e = Event.fetchAttempt .order true ∨ e ∈ es ∨ e = x →
        e = x ∨ (∃ b, e = Event.fetchAttempt .order b) ∨
        (∃ sid, e = Event.write .order t.id sid) ∨
        (∃ sid, e = Event.upsertError .order sid) := by
      intro x hx
      rcases hx with rfl | hx | rfl
      · exact Or.inr (Or.inl ⟨true, rfl⟩)
      · rcases hloopEv e hx with ⟨sid, rfl⟩ | ⟨sid, rfl⟩
        · exact Or.inr (Or.inr (Or.inl ⟨sid, rfl⟩))
        · exact Or.inr (Or.inr (Or.inr ⟨sid, rfl⟩))
      · exact Or.inl rfl
    cases b
    · simp only [syncOrders, henv, hr] at he
      have he' : e = Event.fetchAttempt .order true ∨ e ∈ es
          ∨ e = Event.syncFailedLog .order := by
        rcases List.mem_cons.mp he with rfl | he
        · exact Or.inl rfl
        · rcases List.mem_append.mp he with he | he
          · exact Or.inr (Or.inl he)
          · exact Or.inr (Or.inr (List.mem_singleton.mp he))
      rcases hmem _ he' with rfl | ⟨b, rfl⟩ | ⟨sid, rfl⟩ | ⟨sid, rfl⟩
      · exact Or.inr (Or.inr (Or.inr (Or.inr rfl)))
      · exact Or.inl ⟨b, rfl⟩
      · exact Or.inr (Or.inl ⟨sid, rfl⟩)
      · exact Or.inr (Or.inr (Or.inl ⟨sid, rfl⟩))
    · simp only [syncOrders, henv, hr] at he
      have he' : e = Event.fetchAttempt .order true ∨ e ∈ es
          ∨ e = Event.syncedCount .order os.length := by
        rcases List.mem_cons.mp he with rfl | he
        · exact Or.inl rfl
        · rcases List.mem_append.mp he with he | he
          · exact Or.inr (Or.inl he)
          · exact Or.inr (Or.inr (List.mem_singleton.mp he))
      rcases hmem _ he' with rfl | ⟨b, rfl⟩ | ⟨sid, rfl⟩ | ⟨sid, rfl⟩
      · exact Or.inr (Or.inr (Or.inr (Or.inl ⟨os.length, rfl⟩)))
      · exact Or.inl ⟨b, rfl⟩
      · exact Or.inr (Or.inl ⟨sid, rfl⟩)
      · exact Or.inr (Or.inr (Or.inl ⟨sid, rfl⟩))

/-- A tenant sync's event list starts with the start-of-sync log line. -/
lemma syncShopifyData_events_head (env : Env) (tbl : List Tenant)
    (tid tm : String) (s : Sys) :
    ∃ rest, (syncShopifyData env tbl tid tm s).2.1 = Event.startSync tid :: rest := by
  rcases hf : tbl.find? (fun u => decide (u.id = tid)) with _ | t
  · exact ⟨[], by simp [syncShopifyData, hf]⟩
  · exact ⟨(syncCustomers env t tm s).2 ++
      ((syncProducts env t tm (syncCustomers env t tm s).1).2 ++
        (syncOrders env t tm (syncProducts env t tm (syncCustomers env t tm s).1).1).2),
      by simp [syncShopifyData, hf]⟩

/-- A tenant sync performs no connection test. -/
lemma syncShopifyData_no_connTest (env : Env) (tbl : List Tenant)
    (tid tm : String) (s : Sys) :
    ∀ e ∈ (syncShopifyData env tbl tid tm s).2.1, isConnTest e = false := by
  intro e he
  rcases hf : tbl.find? (fun u => decide (u.id = tid)) with _ | t
  · simp only [syncShopifyData, hf, List.mem_singleton] at he
    subst he; rfl
  · simp only [syncShopifyData, hf, List.mem_cons, List.mem_append, or_assoc] at he
    rcases he with rfl | he | he | he
    · rfl
    · rcases syncCustomers_events_shape env t tm s e he with
        ⟨b, rfl⟩ | ⟨sid, rfl⟩ | ⟨sid, rfl⟩ | ⟨n, rfl⟩ | rfl <;> rfl
    · rcases syncProducts_events_shape env t tm _ e he with
        ⟨b, rfl⟩ | ⟨sid, rfl⟩ | ⟨sid, rfl⟩ | ⟨n, rfl⟩ | rfl <;> rfl
    · rcases syncOrders_events_shape env t tm _ e he with
        ⟨b, rfl⟩ | ⟨sid, rfl⟩ | ⟨sid, rfl⟩ | ⟨n, rfl⟩ | rfl <;> rfl

/-- The fleet loop performs no connection test. -/
lemma runTenantLoop_no_connTest (envOf : String → Env) (tbl : List Tenant)
    (tm : String) (ids : List String) : ∀ s : Sys,
    ∀ e ∈ (runTenantLoop envOf tbl tm ids s).2, isConnTest e = false := by
  induction ids with
  | nil => intro s e he; simp [runTenantLoop] at he
  | cons tid rest ih =>
    intro s e he
    rcases hr : syncShopifyData (envOf tid) tbl tid tm s with ⟨s', es, ok⟩
    simp only [runTenantLoop, hr, List.mem_append] at he
    rcases he with (he | he) | he
    · have := syncShopifyData_no_connTest (envOf tid) tbl tid tm s e
      rw [hr] at this
      exact this he
    · cases ok
      · simp at he
        subst he; rfl
      · simp at he
    · exact ih s' e he

/-- C7. For every tenant whose row exists, a tenant sync attempts the
three entity fetches exactly once each, in the fixed order customers,
products, orders — whatever the outcome of each reconciler, so an earlier
reconciler's internal failure does not prevent the later ones. -/
theorem c7_reconcilers_in_fixed_sequence (env : Env) (tbl : List Tenant)
    (tid tm : String) (s : Sys) (t : Tenant)
    (hfind : tbl.find? (fun u => decide (u.id = tid)) = some t) :
    ∃ b1 b2 b3, ((syncShopifyData env tbl tid tm s).2.1).filter isFetch
      = [Event.fetchAttempt .customer b1, Event.fetchAttempt .product b2,
         Event.fetchAttempt .order b3] := by
  obtain ⟨b1, h1⟩ := syncCustomers_filter_fetch env t tm s
  obtain ⟨b2, h2⟩ := syncProducts_filter_fetch env t tm (syncCustomers env t tm s).1
  obtain ⟨b3, h3⟩ :=
    syncOrders_filter_fetch env t tm (syncProducts env t tm (syncCustomers env t tm s).1).1
  refine ⟨b1, b2, b3, ?_⟩
  simp only [syncShopifyData, hfind]
  simp [List.filter_append, h1, h2, h3, isFetch, List.filter]

/-- Fixture environment in which the customers fetch fails while products
and orders succeed. -/
def envCustDown : Env := { envD with custFetch := .error () }

/-- C7 witness: with the customers fetch failing, the sync still attempts
customers, then products, then orders, in that order. -/
theorem c7_reconcilers_in_fixed_sequence_witness :
    ([tenantD].find? (fun u => decide (u.id = "d-tenant")) = some tenantD) ∧
    (∃ b1 b2 b3,
      ((syncShopifyData envCustDown [tenantD] "d-tenant" "2024-02-01" sysEmpty).2.1).filter isFetch
        = [Event.fetchAttempt .customer b1, Event.fetchAttempt .product b2,
           Event.fetchAttempt .order b3]) ∧
    ((syncShopifyData envCustDown [tenantD] "d-tenant" "2024-02-01" sysEmpty).2.1).filter isFetch
      = [Event.fetchAttempt .customer false, Event.fetchAttempt .product true,
         Event.fetchAttempt .order true] :=
  ⟨by decide,
   c7_reconcilers_in_fixed_sequence envCustDown [tenantD] "d-tenant" "2024-02-01"
     sysEmpty tenantD (by decide),
   by decide⟩

/-- C6. The fleet loop attempts a sync for every enumerated tenant —
whatever happens to the others — and a tenant whose sync throws (its row
has disappeared from the tenants table) has the failure caught and logged
with its tenant id, without stopping the loop. -/
theorem c6_fleet_isolation (envOf : String → Env) (ids : List String)
    (tbl : List Tenant) (tm : String) (s : Sys) :
    (∀ tid ∈ ids, Event.startSync tid ∈ (runScheduledSync envOf (.ok ids) tbl tm s).2) ∧
    (∀ tid ∈ ids, tbl.find? (fun u => decide (u.id = tid)) = none →
      Event.tenantSyncFailed tid ∈ (runScheduledSync envOf (.ok ids) tbl tm s).2) := by
  simp only [runScheduledSync]
  induction ids generalizing s with
  | nil => exact ⟨by simp, by simp⟩
  | cons tid0 rest ih =>
    rcases hr : syncShopifyData (envOf tid0) tbl tid0 tm s with ⟨s', es, ok⟩
    have hloop : runTenantLoop envOf tbl tm (tid0 :: rest) s
        = ((runTenantLoop envOf tbl tm rest s').1,
           (es ++ if ok then [] else [Event.tenantSyncFailed tid0])
             ++ (runTenantLoop envOf tbl tm rest s').2) := by
      simp [runTenantLoop, hr]
    constructor
    · intro tid htid
      rcases List.mem_cons.mp htid with rfl | h
      · obtain ⟨restEv, hev⟩ := syncShopifyData_events_head (envOf tid) tbl tid tm s
        rw [hr] at hev
        simp only at hev
        rw [hloop]
        simp [hev]
      · have := (ih s').1 tid h
        rw [hloop]
        simp only [List.mem_append]
        exact Or.inr this
    · intro tid htid hnone
      rcases List.mem_cons.mp htid with rfl | h
      · have hok : ok = false := by
          have : syncShopifyData (envOf tid) tbl tid tm s = (s, [Event.startSync tid], false) := by
            simp [syncShopifyData, hnone]
          rw [hr] at this
          simpa using congrArg (fun q => q.2.2) this.symm
        subst hok
        rw [hloop]
        simp
      · have := (ih s').2 tid h hnone
        rw [hloop]
        simp only [List.mem_append]
        exact Or.inr this

/-- Fixture tenant T1. -/
def tenantT1 : Tenant := { id := "T1", shop_domain := "d1", access_token := "k1" }

/-- Fixture tenant T3. -/
def tenantT3 : Tenant := { id := "T3", shop_domain := "d3", access_token := "k3" }

/-- C6 witness: enumerated tenants T1, T2, T3 where T2's row has
disappeared (its sync throws): all three are attempted, T2's failure is
logged with its id, and T1 and T3 both get their customer writes. -/
theorem c6_fleet_isolation_witness :
    ("T1" ∈ ["T1", "T2", "T3"] ∧ "T2" ∈ ["T1", "T2", "T3"] ∧ "T3" ∈ ["T1", "T2", "T3"] ∧
      [tenantT1, tenantT3].find? (fun u => decide (u.id = "T2")) = none) ∧
    (Event.startSync "T1" ∈
      (runScheduledSync (fun _ => envD) (.ok ["T1", "T2", "T3"]) [tenantT1, tenantT3]
        "2024-02-01" sysEmpty).2 ∧
     Event.startSync "T2" ∈
      (runScheduledSync (fun _ => envD) (.ok ["T1", "T2", "T3"]) [tenantT1, tenantT3]
        "2024-02-01" sysEmpty).2 ∧
     Event.startSync "T3" ∈
      (runScheduledSync (fun _ => envD) (.ok ["T1", "T2", "T3"]) [tenantT1, tenantT3]
        "2024-02-01" sysEmpty).2 ∧
     Event.tenantSyncFailed "T2" ∈
      (runScheduledSync (fun _ => envD) (.ok ["T1", "T2", "T3"]) [tenantT1, tenantT3]
        "2024-02-01" sysEmpty).2) ∧
    Event.write .customer "T1" "1" ∈
      (runScheduledSync (fun _ => envD) (.ok ["T1", "T2", "T3"]) [tenantT1, tenantT3]
        "2024-02-01" sysEmpty).2 ∧
    Event.write .customer "T3" "1" ∈
      (runScheduledSync (fun _ => envD) (.ok ["T1", "T2", "T3"]) [tenantT1, tenantT3]
        "2024-02-01" sysEmpty).2 :=
  ⟨⟨by decide, by decide, by decide, by decide⟩,
   ⟨(c6_fleet_isolation (fun _ => envD) ["T1", "T2", "T3"] [tenantT1, tenantT3]
       "2024-02-01" sysEmpty).1 "T1" (by decide),
    (c6_fleet_isolation (fun _ => envD) ["T1", "T2", "T3"] [tenantT1, tenantT3]
       "2024-02-01" sysEmpty).1 "T2" (by decide),
    (c6_fleet_isolation (fun _ => envD) ["T1", "T2", "T3"] [tenantT1, tenantT3]
       "2024-02-01" sysEmpty).1 "T3" (by decide),
    (c6_fleet_isolation (fun _ => envD) ["T1", "T2", "T3"] [tenantT1, tenantT3]
       "2024-02-01" sysEmpty).2 "T2" (by decide) (by decide)⟩,
   by decide, by decide⟩

/-- C4 counterexample: a scheduled sync for tenant `d-tenant` performs
entity fetches while its whole event list contains no connection test,
refuting "for every sync attempt (manual and scheduled), testConnection
is called before any entity fetch or write". -/
theorem c4_counterexample :
    ((runScheduledSync (fun _ => envD) (.ok ["d-tenant"]) [tenantD]
        "2024-02-01" sysEmpty).2).any isFetch = true ∧
    ((runScheduledSync (fun _ => envD) (.ok ["d-tenant"]) [tenantD]
        "2024-02-01" sysEmpty).2).all (fun e => !isConnTest e) = true := by
  constructor <;> decide

/-- C4 (amended). Only the manual trigger path tests the connection: a
scheduled run performs no connection test at all, while on the manual
path the connection test is the first observable step — before any fetch
or write — and on its failure the request is answered with the
connection-failed response and the state is untouched (no writes). -/
theorem c4_connection_test_amended :
    (∀ (envOf : String → Env) (ids : List String) (tbl : List Tenant)
        (tm : String) (s : Sys),
      ∀ e ∈ (runScheduledSync envOf (.ok ids) tbl tm s).2, isConnTest e = false) ∧
    (∀ (env : Env) (tbl : List Tenant) (tid tm : String) (s : Sys) (t : Tenant),
      tbl.find? (fun u => decide (u.id = tid)) = some t →
      ((manualSync env tbl tid tm s).2.1).head? = some (Event.connTest env.connTestOk) ∧
      (env.connTestOk = false →
        manualSync env tbl tid tm s = (s, [Event.connTest false], .connectionFailed))) := by
  constructor
  · intro envOf ids tbl tm s e he
    exact runTenantLoop_no_connTest envOf tbl tm ids s e he
  · intro env tbl tid tm s t hfind
    constructor
    · cases hok : env.connTestOk
      · simp [manualSync, hfind, hok]
      · rcases hr : syncShopifyData env tbl tid tm s with ⟨s', es, ok⟩
        cases ok <;> simp [manualSync, hfind, hok, hr]
    · intro hok
      simp [manualSync, hfind, hok]

/-- C4 witness: with an unreachable vendor store, the manual sync request
answers `connectionFailed`, leaves the state untouched, and logs only the
failed connection test; and the concrete scheduled run's fetch event is
not a connection test. -/
theorem c4_connection_test_amended_witness :
    ([tenantD].find? (fun u => decide (u.id = "d-tenant")) = some tenantD) ∧
    ((Env.mk false (.ok [rawCust1]) (.ok []) (.ok []) noFailOracle).connTestOk = false) ∧
    manualSync (Env.mk false (.ok [rawCust1]) (.ok []) (.ok []) noFailOracle)
        [tenantD] "d-tenant" "2024-02-01" sysEmpty
      = (sysEmpty, [Event.connTest false], .connectionFailed) ∧
    (Event.fetchAttempt .customer true ∈
        (runScheduledSync (fun _ => envD) (.ok ["d-tenant"]) [tenantD]
          "2024-02-01" sysEmpty).2 ∧
      isConnTest (Event.fetchAttempt .customer true) = false) :=
  ⟨by decide, rfl,
   ((c4_connection_test_amended.2
      (Env.mk false (.ok [rawCust1]) (.ok []) (.ok []) noFailOracle)
      [tenantD] "d-tenant" "2024-02-01" sysEmpty tenantD (by decide)).2 rfl),
   ⟨by decide,
    c4_connection_test_amended.1 (fun _ => envD) ["d-tenant"] [tenantD]
      "2024-02-01" sysEmpty (Event.fetchAttempt .customer true) (by decide)⟩⟩

/-- Processing a batch whose first malformed record follows the
well-formed records `pre` upserts exactly `pre` and then aborts: the
records after the malformed one are never processed, and one fresh uuid
is consumed by the malformed record's half-built object literal. -/
lemma runCustomerLoop_append_bad (env : Env) (t : Tenant) (tm : String)
    (pre : List RawCustomer) (bad : RawCustomer) (post : List RawCustomer)
    (hbad : bad.id = none) : ∀ s : Sys, (∀ c ∈ pre, (c.id).isSome = true) →
    runCustomerLoop env t tm (pre ++ bad :: post) s
      = (Sys.mk (runCustomerLoop env t tm pre s).1.store
          ((runCustomerLoop env t tm pre s).1.gen + 1),
         (runCustomerLoop env t tm pre s).2.1, false) := by
  induction pre with
  | nil =>
    intro s _
    simp [runCustomerLoop, customerData, hbad]
  | cons c rest ih =>
    intro s h
    obtain ⟨n, hn⟩ := Option.isSome_iff_exists.mp (h c (List.mem_cons_self c rest))
    have hrest : ∀ c ∈ rest, (c.id).isSome = true :=
      fun c hc => h c (List.mem_cons_of_mem _ hc)
    simp only [List.cons_append, runCustomerLoop, customerData, hn, List.append_eq]
    split
    · rw [ih _ hrest]
    · rw [ih _ hrest]

/-- C3 counterexample: in the batch [customer 1, malformed, customer 2]
(N = 3, one malformed record) the reconciler does not upsert the other
two valid rows — only customer 1, observed before the malformed record,
is stored — refuting "the reconciler upserts the N-1 valid rows". -/
theorem c3_counterexample :
    (syncCustomers { envD with custFetch := .ok [rawCust1, rawCustBad, rawCust2] }
        tenantD "2024-02-01" sysEmpty).1.store.customers.length ≠ 2 ∧
    (syncCustomers { envD with custFetch := .ok [rawCust1, rawCustBad, rawCust2] }
        tenantD "2024-02-01" sysEmpty).1.store.customers.map (fun r => r.shopify_id)
      = ["1"] ∧
    Event.syncFailedLog .customer ∈
      (syncCustomers { envD with custFetch := .ok [rawCust1, rawCustBad, rawCust2] }
        tenantD "2024-02-01" sysEmpty).2 := by
  exact ⟨by decide, by decide, by decide⟩

/-- C3 (amended). A malformed customer record k (no vendor id) makes the
mapping throw inside the per-record loop: the records before k are
upserted, the records after k are skipped, the failure is caught at the
reconciler boundary and logged as the customer-sync failure line (with no
per-record count reported), and nothing escapes the reconciler — the
orchestrator still attempts the product and order fetches afterwards. -/
theorem c3_malformed_aborts_batch_amended (env : Env) (t : Tenant)
    (tm : String) (s : Sys) (pre : List RawCustomer) (bad : RawCustomer)
    (post : List RawCustomer)
    (henv : env.custFetch = .ok (pre ++ bad :: post))
    (hpre : ∀ c ∈ pre, (c.id).isSome = true) (hbad : bad.id = none) :
    (syncCustomers env t tm s).1.store = (runCustomerLoop env t tm pre s).1.store ∧
    (syncCustomers env t tm s).2
      = Event.fetchAttempt .customer true ::
          ((runCustomerLoop env t tm pre s).2.1 ++ [Event.syncFailedLog .customer]) ∧
    (∀ (tbl : List Tenant) (tid : String),
      tbl.find? (fun u => decide (u.id = tid)) = some t →
      (∃ b, Event.fetchAttempt .product b ∈ (syncShopifyData env tbl tid tm s).2.1) ∧
      (∃ b, Event.fetchAttempt .order b ∈ (syncShopifyData env tbl tid tm s).2.1)) := by
  have hloop := runCustomerLoop_append_bad env t tm pre bad post hbad s hpre
  refine ⟨?_, ?_, ?_⟩
  · simp [syncCustomers, henv, hloop]
  · simp [syncCustomers, henv, hloop]
  · intro tbl tid hfind
    constructor
    · obtain ⟨b, hb⟩ := syncProducts_filter_fetch env t tm (syncCustomers env t tm s).1
      refine ⟨b, ?_⟩
      have hmem : Event.fetchAttempt .product b ∈
          (syncProducts env t tm (syncCustomers env t tm s).1).2 :=
        List.mem_of_mem_filter (by rw [hb]; exact List.mem_singleton.mpr rfl)
      simp only [syncShopifyData, hfind, List.mem_cons, List.mem_append]
      tauto
    · obtain ⟨b, hb⟩ := syncOrders_filter_fetch env t tm
        (syncProducts env t tm (syncCustomers env t tm s).1).1
      refine ⟨b, ?_⟩
      have hmem : Event.fetchAttempt .order b ∈
          (syncOrders env t tm (syncProducts env t tm (syncCustomers env t tm s).1).1).2 :=
        List.mem_of_mem_filter (by rw [hb]; exact List.mem_singleton.mpr rfl)
      simp only [syncShopifyData, hfind, List.mem_cons, List.mem_append]
      tauto

/-- C3 witness: batch [customer 1, malformed, customer 2] — the stored
table equals the one obtained from the prefix [customer 1] alone, and the
product and order fetches still happen afterwards. -/
theorem c3_malformed_aborts_batch_amended_witness :
    ({ envD with custFetch := .ok [rawCust1, rawCustBad, rawCust2] } : Env).custFetch
        = .ok ([rawCust1] ++ rawCustBad :: [rawCust2]) ∧
    (∀ c ∈ [rawCust1], (c.id).isSome = true) ∧
    rawCustBad.id = none ∧
    (syncCustomers { envD with custFetch := .ok [rawCust1, rawCustBad, rawCust2] }
        tenantD "2024-02-01" sysEmpty).1.store
      = (runCustomerLoop { envD with custFetch := .ok [rawCust1, rawCustBad, rawCust2] }
          tenantD "2024-02-01" [rawCust1] sysEmpty).1.store ∧
    (∃ b, Event.fetchAttempt .product b ∈
      (syncShopifyData { envD with custFetch := .ok [rawCust1, rawCustBad, rawCust2] }
        [tenantD] "d-tenant" "2024-02-01" sysEmpty).2.1) :=
  ⟨rfl, by decide, rfl,
   (c3_malformed_aborts_batch_amended _ tenantD "2024-02-01" sysEmpty
      [rawCust1] rawCustBad [rawCust2] rfl (by decide) rfl).1,
   ((c3_malformed_aborts_batch_amended _ tenantD "2024-02-01" sysEmpty
      [rawCust1] rawCustBad [rawCust2] rfl (by decide) rfl).2.2
      [tenantD] "d-tenant" (by decide)).1⟩

/-- Mapping a function that fixes every kept row and never makes a
dropped row kept leaves a filter unchanged. -/
lemma filter_map_fix {ρ : Type} (p : ρ → Bool) (f : ρ → ρ)
    (hkeep : ∀ r, p r = true → f r = r)
    (hdrop : ∀ r, p r = false → p (f r) = false) :
    ∀ store : List ρ, (store.map f).filter p = store.filter p := by
  intro store
  induction store with
  | nil => rfl
  | cons a l ihl =>
    cases ha : p a
    · simp [List.filter_cons, ha, hdrop a ha, ihl]
    · simp [List.filter_cons, hkeep a ha, ha, ihl]

/-- An upsert of a row that a filter drops — and whose conflict key no
kept row can carry — leaves the filter unchanged. -/
lemma filter_upsertBy {ρ : Type} (key : ρ → String × String) (p : ρ → Bool)
    (store : List ρ) (row : ρ) (hrow : p row = false)
    (hkey : ∀ r, p r = true → key r ≠ key row) :
    (upsertBy key store row).filter p = store.filter p := by
  unfold upsertBy
  split
  · refine filter_map_fix p _ ?_ ?_ store
    · intro r hr
      simp [hkey r hr]
    · intro r hr
      by_cases hk : key r = key row
      · simp [hk, hrow]
      · simp [hk, hr]
  · simp [List.filter_append, List.filter, hrow]

/-- The customers loop leaves the products table untouched. -/
lemma runCustomerLoop_products (env : Env) (t : Tenant) (tm : String)
    (cs : List RawCustomer) : ∀ s : Sys,
    (runCustomerLoop env t tm cs s).1.store.products = s.store.products := by
  induction cs with
  | nil => intro s; rfl
  | cons c rest ih =>
    intro s
    simp only [runCustomerLoop]
    rcases hc : customerData s.gen t.id tm c with _ | row
    · simp [hc]
    · simp only [hc]
      split
      · exact ih _
      · exact ih _

/-- The customers loop leaves the orders table untouched. -/
lemma runCustomerLoop_orders (env : Env) (t : Tenant) (tm : String)
    (cs : List RawCustomer) : ∀ s : Sys,
    (runCustomerLoop env t tm cs s).1.store.orders = s.store.orders := by
  induction cs with
  | nil => intro s; rfl
  | cons c rest ih =>
    intro s
    simp only [runCustomerLoop]
    rcases hc : customerData s.gen t.id tm c with _ | row
    · simp [hc]
    · simp only [hc]
      split
      · exact ih _
      · exact ih _

/-- The products loop leaves the customers table untouched. -/
lemma runProductLoop_customers (env : Env) (t : Tenant) (tm : String)
    (ps : List RawProduct) : ∀ s : Sys,
    (runProductLoop env t tm ps s).1.store.customers = s.store.customers := by
  induction ps with
  | nil => intro s; rfl
  | cons p rest ih =>
    intro s
    simp only [runProductLoop]
    rcases hp : productData s.gen t.id tm p with _ | row
    · simp [hp]
    · simp only [hp]
      split
      · exact ih _
      · exact ih _

/-- The products loop leaves the orders table untouched. -/
lemma runProductLoop_orders (env : Env) (t : Tenant) (tm : String)
    (ps : List RawProduct) : ∀ s : Sys,
    (runProductLoop env t tm ps s).1.store.orders = s.store.orders := by
  induction ps with
  | nil => intro s; rfl
  | cons p rest ih =>
    intro s
    simp only [runProductLoop]
    rcases hp : productData s.gen t.id tm p with _ | row
    · simp [hp]
    · simp only [hp]
      split
      · exact ih _
      · exact ih _

/-- The orders loop leaves the customers table untouched. -/
lemma runOrderLoop_customers (env : Env) (t : Tenant) (tm : String)
    (os : List RawOrder) : ∀ s : Sys,
    (runOrderLoop env t tm os s).1.store.customers = s.store.customers := by
  induction os with
  | nil => intro s; rfl
  | cons o rest ih =>
    intro s
    simp only [runOrderLoop]
    rcases ho : orderData s.gen t.id tm o with _ | row
    · simp [ho]
    · simp only [ho]
      split
      · exact ih _
      · exact ih _

/-- The orders loop leaves the products table untouched. -/
lemma runOrderLoop_products (env : Env) (t : Tenant) (tm : String)
    (os : List RawOrder) : ∀ s : Sys,
    (runOrderLoop env t tm os s).1.store.products = s.store.products := by
  induction os with
  | nil => intro s; rfl
  | cons o rest ih =>
    intro s
    simp only [runOrderLoop]
    rcases ho : orderData s.gen t.id tm o with _ | row
    · simp [ho]
    · simp only [ho]
      split
      · exact ih _
      · exact ih _

/-- The customer reconciler leaves the products table untouched. -/
lemma syncCustomers_products (env : Env) (t : Tenant) (tm : String) (s : Sys) :
    (syncCustomers env t tm s).1.store.products = s.store.products := by
  rcases henv : env.custFetch with _ | cs
  · simp [syncCustomers, henv]
  · have h := runCustomerLoop_products env t tm cs s
    rcases hr : runCustomerLoop env t tm cs s with ⟨s', es, b⟩
    rw [hr] at h
    cases b <;> simp [syncCustomers, henv, hr] <;> exact h

/-- The customer reconciler leaves the orders table untouched. -/
lemma syncCustomers_orders (env : Env) (t : Tenant) (tm : String) (s : Sys) :
    (syncCustomers env t tm s).1.store.orders = s.store.orders := by
  rcases henv : env.custFetch with _ | cs
  · simp [syncCustomers, henv]
  · have h := runCustomerLoop_orders env t tm cs s
    rcases hr : runCustomerLoop env t tm cs s with ⟨s', es, b⟩
    rw [hr] at h
    cases b <;> simp [syncCustomers, henv, hr] <;> exact h

/-- The product reconciler leaves the customers table untouched. -/
lemma syncProducts_customers (env : Env) (t : Tenant) (tm : String) (s : Sys) :
    (syncProducts env t tm s).1.store.customers = s.store.customers := by
  rcases henv : env.prodFetch with _ | ps
  · simp [syncProducts, henv]
  · have h := runProductLoop_customers env t tm ps s
    rcases hr : runProductLoop env t tm ps s with ⟨s', es, b⟩
    rw [hr] at h
    cases b <;> simp [syncProducts, henv, hr] <;> exact h

/-- The product reconciler leaves the orders table untouched. -/
lemma syncProducts_orders (env : Env) (t : Tenant) (tm : String) (s : Sys) :
    (syncProducts env t tm s).1.store.orders = s.store.orders := by
  rcases henv : env.prodFetch with _ | ps
  · simp [syncProducts, henv]
  · have h := runProductLoop_orders env t tm ps s
    rcases hr : runProductLoop env t tm ps s with ⟨s', es, b⟩
    rw [hr] at h
    cases b <;> simp [syncProducts, henv, hr] <;> exact h

/-- The order reconciler leaves the customers table untouched. -/
lemma syncOrders_customers (env : Env) (t : Tenant) (tm : String) (s : Sys) :
    (syncOrders env t tm s).1.store.customers = s.store.customers := by
  rcases henv : env.ordFetch with _ | os
  · simp [syncOrders, henv]
  · have h := runOrderLoop_customers env t tm os s
    rcases hr : runOrderLoop env t tm os s with ⟨s', es, b⟩
    rw [hr] at h
    cases b <;> simp [syncOrders, henv, hr] <;> exact h

/-- The order reconciler leaves the products table untouched. -/
lemma syncOrders_products (env : Env) (t : Tenant) (tm : String) (s : Sys) :
    (syncOrders env t tm s).1.store.products = s.store.products := by
  rcases henv : env.ordFetch with _ | os
  · simp [syncOrders, henv]
  · have h := runOrderLoop_products env t tm os s
    rcases hr : runOrderLoop env t tm os s with ⟨s', es, b⟩
    rw [hr] at h
    cases b <;> simp [syncOrders, henv, hr] <;> exact h

/-- The customers loop preserves the rows of every tenant other than the
one being synced, exactly. -/
lemma runCustomerLoop_filter_tenant (env : Env) (t : Tenant) (tm : String)
    (cs : List RawCustomer) (B : String) (hB : B ≠ t.id) : ∀ s : Sys,
    ((runCustomerLoop env t tm cs s).1.store.customers).filter
        (fun r => decide (r.tenant_id = B))
      = (s.store.customers).filter (fun r => decide (r.tenant_id = B)) := by
  induction cs with
  | nil => intro s; rfl
  | cons c rest ih =>
    intro s
    simp only [runCustomerLoop]
    rcases hc : customerData s.gen t.id tm c with _ | row
    · simp [hc]
    · simp only [hc]
      have htid := customerData_tenant _ _ _ _ _ hc
      split
      · exact ih _
      · refine (ih _).trans (filter_upsertBy keyC _ s.store.customers row ?_ ?_)
        · simp only [htid, decide_eq_false_iff_not]
          exact fun h => hB h.symm
        · intro r hr hcontra
          have h1 : r.tenant_id = B := of_decide_eq_true hr
          have h2 : r.tenant_id = row.tenant_id := congrArg Prod.fst hcontra
          rw [h1, htid] at h2
          exact hB h2

/-- The products loop preserves the rows of every tenant other than the
one being synced, exactly. -/
lemma runProductLoop_filter_tenant (env : Env) (t : Tenant) (tm : String)
    (ps : List RawProduct) (B : String) (hB : B ≠ t.id) : ∀ s : Sys,
    ((runProductLoop env t tm ps s).1.store.products).filter
        (fun r => decide (r.tenant_id = B))
      = (s.store.products).filter (fun r => decide (r.tenant_id = B)) := by
  induction ps with
  | nil => intro s; rfl
  | cons p rest ih =>
    intro s
    simp only [runProductLoop]
    rcases hp : productData s.gen t.id tm p with _ | row
    · simp [hp]
    · simp only [hp]
      have htid := productData_tenant _ _ _ _ _ hp
      split
      · exact ih _
      · refine (ih _).trans (filter_upsertBy keyP _ s.store.products row ?_ ?_)
        · simp only [htid, decide_eq_false_iff_not]
          exact fun h => hB h.symm
        · intro r hr hcontra
          have h1 : r.tenant_id = B := of_decide_eq_true hr
          have h2 : r.tenant_id = row.tenant_id := congrArg Prod.fst hcontra
          rw [h1, htid] at h2
          exact hB h2

/-- The orders loop preserves the rows of every tenant other than the
one being synced, exactly. -/
lemma runOrderLoop_filter_tenant (env : Env) (t : Tenant) (tm : String)
    (os : List RawOrder) (B : String) (hB : B ≠ t.id) : ∀ s : Sys,
    ((runOrderLoop env t tm os s).1.store.orders).filter
        (fun r => decide (r.tenant_id = B))
      = (s.store.orders).filter (fun r => decide (r.tenant_id = B)) := by
  induction os with
  | nil => intro s; rfl
  | cons o rest ih =>
    intro s
    simp only [runOrderLoop]
    rcases ho : orderData s.gen t.id tm o with _ | row
    · simp [ho]
    · simp only [ho]
      have htid := orderData_tenant _ _ _ _ _ ho
      split
      · exact ih _
      · refine (ih _).trans (filter_upsertBy keyO _ s.store.orders row ?_ ?_)
        · simp only [htid, decide_eq_false_iff_not]
          exact fun h => hB h.symm
        · intro r hr hcontra
          have h1 : r.tenant_id = B := of_decide_eq_true hr
          have h2 : r.tenant_id = row.tenant_id := congrArg Prod.fst hcontra
          rw [h1, htid] at h2
          exact hB h2

/-- The customer reconciler preserves other tenants' customer rows. -/
lemma syncCustomers_filter_tenant (env : Env) (t : Tenant) (tm : String)
    (s : Sys) (B : String) (hB : B ≠ t.id) :
    ((syncCustomers env t tm s).1.store.customers).filter
        (fun r => decide (r.tenant_id = B))
      = (s.store.customers).filter (fun r => decide (r.tenant_id = B)) := by
  rcases henv : env.custFetch with _ | cs
  · simp [syncCustomers, henv]
  · have h := runCustomerLoop_filter_tenant env t tm cs B hB s
    rcases hr : runCustomerLoop env t tm cs s with ⟨s', es, b⟩
    rw [hr] at h
    cases b <;> simp [syncCustomers, henv, hr] <;> exact h

/-- The product reconciler preserves other tenants' product rows. -/
lemma syncProducts_filter_tenant (env : Env) (t : Tenant) (tm : String)
    (s : Sys) (B : String) (hB : B ≠ t.id) :
    ((syncProducts env t tm s).1.store.products).filter
        (fun r => decide (r.tenant_id = B))
      = (s.store.products).filter (fun r => decide (r.tenant_id = B)) := by
  rcases henv : env.prodFetch with _ | ps
  · simp [syncProducts, henv]
  · have h := runProductLoop_filter_tenant env t tm ps B hB s
    rcases hr : runProductLoop env t tm ps s with ⟨s', es, b⟩
    rw [hr] at h
    cases b <;> simp [syncProducts, henv, hr] <;> exact h

/-- The order reconciler preserves other tenants' order rows. -/
lemma syncOrders_filter_tenant (env : Env) (t : Tenant) (tm : String)
    (s : Sys) (B : String) (hB : B ≠ t.id) :
    ((syncOrders env t tm s).1.store.orders).filter
        (fun r => decide (r.tenant_id = B))
      = (s.store.orders).filter (fun r => decide (r.tenant_id = B)) := by
  rcases henv : env.ordFetch with _ | os
  · simp [syncOrders, henv]
  · have h := runOrderLoop_filter_tenant env t tm os B hB s
    rcases hr : runOrderLoop env t tm os s with ⟨s', es, b⟩
    rw [hr] at h
    cases b <;> simp [syncOrders, henv, hr] <;> exact h

/-- C2. While tenant `tid` is synced, every write event carries tenant id
`tid`, and for every other tenant B the B-owned rows of all three tables
are preserved exactly — no row of B is created, deleted or mutated, even
when B holds the same external ids. -/
theorem c2_tenant_isolation (env : Env) (tbl : List Tenant) (tid tm : String)
    (s : Sys) (B : String) (hB : B ≠ tid) :
    (((syncShopifyData env tbl tid tm s).1.store.customers).filter
        (fun r => decide (r.tenant_id = B))
      = (s.store.customers).filter (fun r => decide (r.tenant_id = B))) ∧
    (((syncShopifyData env tbl tid tm s).1.store.products).filter
        (fun r => decide (r.tenant_id = B))
      = (s.store.products).filter (fun r => decide (r.tenant_id = B))) ∧
    (((syncShopifyData env tbl tid tm s).1.store.orders).filter
        (fun r => decide (r.tenant_id = B))
      = (s.store.orders).filter (fun r => decide (r.tenant_id = B))) ∧
    (∀ (k : EntityKind) (tid' sid : String),
      Event.write k tid' sid ∈ (syncShopifyData env tbl tid tm s).2.1 → tid' = tid) := by
  rcases hfind : tbl.find? (fun u => decide (u.id = tid)) with _ | t
  · refine ⟨by simp [syncShopifyData, hfind], by simp [syncShopifyData, hfind],
      by simp [syncShopifyData, hfind], ?_⟩
    intro k tid' sid hmem
    simp only [syncShopifyData, hfind, List.mem_singleton] at hmem
    exact Event.noConfusion hmem
  · have htid : t.id = tid := by
      have := List.find?_some hfind
      simpa using this
    have hBt : B ≠ t.id := by rw [htid]; exact hB
    refine ⟨?_, ?_, ?_, ?_⟩
    · simp only [syncShopifyData, hfind]
      rw [syncOrders_customers, syncProducts_customers,
        syncCustomers_filter_tenant env t tm s B hBt]
    · simp only [syncShopifyData, hfind]
      rw [syncOrders_products,
        syncProducts_filter_tenant env t tm _ B hBt, syncCustomers_products]
    · simp only [syncShopifyData, hfind]
      rw [syncOrders_filter_tenant env t tm _ B hBt,
        syncProducts_orders, syncCustomers_orders]
    · intro k tid' sid hmem
      simp only [syncShopifyData, hfind, List.mem_cons, List.mem_append, or_assoc] at hmem
      rcases hmem with heq | hmem | hmem | hmem
      · exact Event.noConfusion heq
      · rcases syncCustomers_events_shape env t tm s _ hmem with
          ⟨b, heq⟩ | ⟨sid2, heq⟩ | ⟨sid2, heq⟩ | ⟨n, heq⟩ | heq
        · exact Event.noConfusion heq
        · injection heq with h1 h2 h3; exact h2.trans htid
        · exact Event.noConfusion heq
        · exact Event.noConfusion heq
        · exact Event.noConfusion heq
      · rcases syncProducts_events_shape env t tm _ _ hmem with
          ⟨b, heq⟩ | ⟨sid2, heq⟩ | ⟨sid2, heq⟩ | ⟨n, heq⟩ | heq
        · exact Event.noConfusion heq
        · injection heq with h1 h2 h3; exact h2.trans htid
        · exact Event.noConfusion heq
        · exact Event.noConfusion heq
        · exact Event.noConfusion heq
      · rcases syncOrders_events_shape env t tm _ _ hmem with
          ⟨b, heq⟩ | ⟨sid2, heq⟩ | ⟨sid2, heq⟩ | ⟨n, heq⟩ | heq
        · exact Event.noConfusion heq
        · injection heq with h1 h2 h3; exact h2.trans htid
        · exact Event.noConfusion heq
        · exact Event.noConfusion heq
        · exact Event.noConfusion heq

/-- Fixture: a customer row owned by another tenant B that shares
external id 1 with the synced tenant's customer 1. -/
def otherTenantRow : CustomerRow :=
  { id := "B-row"
    tenant_id := "B"
    shopify_id := "1"
    first_name := "Bob"
    last_name := ""
    email := ""
    total_spent := 5
    orders_count := 1
    created_at := "2023-12-01"
    updated_at := "2023-12-31" }

/-- Fixture state whose customers table already holds tenant B's row. -/
def sysWithB : Sys :=
  { store := { customers := [otherTenantRow], products := [], orders := [] }, gen := 0 }

/-- C2 witness: syncing `d-tenant` over a store holding tenant B's
customer row with the same external id 1 leaves B's row untouched while
`d-tenant` gets its own row for external id 1. -/
theorem c2_tenant_isolation_witness :
    ("B" : String) ≠ "d-tenant" ∧
    ((syncShopifyData envD [tenantD] "d-tenant" "2024-02-01" sysWithB).1.store.customers).filter
        (fun r => decide (r.tenant_id = "B"))
      = (sysWithB.store.customers).filter (fun r => decide (r.tenant_id = "B")) ∧
    ((syncShopifyData envD [tenantD] "d-tenant" "2024-02-01" sysWithB).1.store.customers).map
        (fun r => (r.tenant_id, r.shopify_id))
      = [("B", "1"), ("d-tenant", "1"), ("d-tenant", "2")] :=
  ⟨by decide,
   (c2_tenant_isolation envD [tenantD] "d-tenant" "2024-02-01" sysWithB "B" (by decide)).1,
   by decide⟩

/-- Interleavings of two step sequences. Each step of a request handler
is atomic between `await` suspension points; `router.post('/sync')`
consults no per-tenant in-flight state and takes no lock of any kind, so
every interleaving of two concurrently received manual-sync requests'
step sequences is a possible execution of the server. -/
inductive Interleave {α : Type} : List α → List α → List α → Prop
  | nil : Interleave [] [] []
  | left {x : α} {xs ys zs : List α} :
      Interleave xs ys zs → Interleave (x :: xs) ys (x :: zs)
  | right {y : α} {xs ys zs : List α} :
      Interleave xs ys zs → Interleave xs (y :: ys) (y :: zs)

/-- Running the whole second sequence at one suspension point of the
first is one of the possible interleavings. -/
lemma interleave_swap {α : Type} (b c : List α) : Interleave b c (c ++ b) := by
  induction c with
  | nil =>
    induction b with
    | nil => exact Interleave.nil
    | cons x xs ih => exact Interleave.left ih
  | cons y ys ih => exact Interleave.right ih

/-- Interleaving obtained by pausing the first sequence after its
segment `a`, running all of `c`, then resuming with `b`. -/
lemma interleave_mid {α : Type} (a b c : List α) :
    Interleave (a ++ b) c (a ++ (c ++ b)) := by
  induction a with
  | nil => simpa using interleave_swap b c
  | cons x xs ih => exact Interleave.left ih

/-- Boolean subsequence test. -/
def subseqB {α : Type} [DecidableEq α] : List α → List α → Bool
  | [], _ => true
  | _ :: _, [] => false
  | a :: as, b :: bs => if a = b then subseqB as bs else subseqB (a :: as) bs

/-- A tagged trace has interleaved writes when some write of request 2
falls strictly between two writes of request 1. -/
def interleavedWrites (zs : List (Nat × Event)) : Bool :=
  subseqB [1, 2, 1] ((zs.filter (fun q => isWrite q.2)).map Prod.fst)

/-- Tagged step sequence of the first of two concurrent manual-sync
requests for tenant `d-tenant`. -/
def taggedRun1 : List (Nat × Event) :=
  ((manualSync envD [tenantD] "d-tenant" "2024-02-01" sysEmpty).2.1).map (fun e => (1, e))

/-- Tagged step sequence of the second of two concurrent manual-sync
requests for tenant `d-tenant`. -/
def taggedRun2 : List (Nat × Event) :=
  ((manualSync envD [tenantD] "d-tenant" "2024-02-02" sysEmpty).2.1).map (fun e => (2, e))

/-- C5 (code bug): the manual-sync route holds no per-tenant lock and
consults no in-flight state, so a second manual sync request for the same
tenant, received while one is in flight, is neither rejected nor queued —
both answer `ok` — and among the permitted interleavings of the two
requests' steps there is one in which the second request's writes fall
between two writes of the first. This evaluates the code at the failing
input: two concurrent manual syncs for tenant `d-tenant`. -/
theorem c5_no_per_tenant_serialization :
    (manualSync envD [tenantD] "d-tenant" "2024-02-01" sysEmpty).2.2 = ManualResponse.ok ∧
    (manualSync envD [tenantD] "d-tenant" "2024-02-02" sysEmpty).2.2 = ManualResponse.ok ∧
    ∃ zs : List (Nat × Event),
      Interleave taggedRun1 taggedRun2 zs ∧ interleavedWrites zs = true := by
  refine ⟨rfl, rfl, taggedRun1.take 4 ++ (taggedRun2 ++ taggedRun1.drop 4), ?_, by decide⟩
  have h := interleave_mid (taggedRun1.take 4) (taggedRun1.drop 4) taggedRun2
  rwa [List.take_append_drop] at h

/-! Algebra of keyed upserts over stores projected to (conflict key,
remaining fields) pairs, used for the idempotency analysis. Here
`upsertBy Prod.fst` acts on a store already paired with its conflict
keys. -/

/-- Keys after an upsert: unchanged when the key was present, the new key
appended otherwise. -/
lemma upsertBy_fst_keys {σ : Type} (E : List ((String × String) × σ))
    (x : (String × String) × σ) :
    (upsertBy Prod.fst E x).map Prod.fst
      = if x.1 ∈ E.map Prod.fst then E.map Prod.fst else E.map Prod.fst ++ [x.1] := by
  unfold upsertBy
  split
  case isTrue h =>
    have hmem : x.1 ∈ E.map Prod.fst := by
      rcases List.any_eq_true.mp h with ⟨r, hr, hdec⟩
      exact of_decide_eq_true hdec ▸ List.mem_map_of_mem Prod.fst hr
    rw [if_pos hmem, List.map_map]
    apply List.map_congr_left
    intro r _
    by_cases hk : r.1 = x.1
    · simp [Function.comp, hk]
    · simp [Function.comp, hk]
  case isFalse h =>
    have hmem : x.1 ∉ E.map Prod.fst := by
      intro hx
      rcases List.mem_map.mp hx with ⟨r, hr, hfst⟩
      exact absurd (List.any_eq_true.mpr ⟨r, hr, decide_eq_true hfst⟩) h
    rw [if_neg hmem]
    simp

/-- An upsert preserves distinctness of the conflict keys. -/
lemma upsertBy_fst_keys_nodup {σ : Type} (E : List ((String × String) × σ))
    (x : (String × String) × σ) (h : (E.map Prod.fst).Nodup) :
    ((upsertBy Prod.fst E x).map Prod.fst).Nodup := by
  rw [upsertBy_fst_keys]
  split
  · exact h
  case isFalse hmem =>
    simp only [List.nodup_append, List.nodup_singleton, List.disjoint_singleton]
    exact ⟨h, trivial, hmem⟩

/-- After an upsert the upserted key is present. -/
lemma upsertBy_fst_mem_self {σ : Type} (E : List ((String × String) × σ))
    (x : (String × String) × σ) : x.1 ∈ (upsertBy Prod.fst E x).map Prod.fst := by
  rw [upsertBy_fst_keys]
  split
  · assumption
  · simp

/-- An upsert never removes a key. -/
lemma upsertBy_fst_mem_mono {σ : Type} (E : List ((String × String) × σ))
    (x : (String × String) × σ) (y : String × String) (h : y ∈ E.map Prod.fst) :
    y ∈ (upsertBy Prod.fst E x).map Prod.fst := by
  rw [upsertBy_fst_keys]
  split
  · exact h
  · exact List.mem_append_left _ h

/-- After upserting `x`, every entry carrying `x`'s key is `x`. -/
lemma upsertBy_fst_at_key {σ : Type} (E : List ((String × String) × σ))
    (x : (String × String) × σ) :
    ∀ r ∈ upsertBy Prod.fst E x, r.1 = x.1 → r = x := by
  intro r hr hk
  unfold upsertBy at hr
  split at hr
  case isTrue h =>
    rcases List.mem_map.mp hr with ⟨r0, hr0, hf⟩
    by_cases hk0 : r0.1 = x.1
    · rw [if_pos hk0] at hf
      exact hf.symm
    · rw [if_neg hk0] at hf
      subst hf
      exact absurd hk hk0
  case isFalse h =>
    rcases List.mem_append.mp hr with hr | hr
    · exact absurd (List.any_eq_true.mpr ⟨r, hr, decide_eq_true hk⟩) h
    · exact List.mem_singleton.mp hr

/-- The "every entry at key k is x" invariant survives upserts at other
keys. -/
lemma upsertBy_fst_at_key_stable {σ : Type} (E : List ((String × String) × σ))
    (x : (String × String) × σ) (k : String × String)
    (hst : ∀ r ∈ E, r.1 = k → r = x) (y : (String × String) × σ) (hy : y.1 ≠ k) :
    ∀ r ∈ upsertBy Prod.fst E y, r.1 = k → r = x := by
  intro r hr hk
  unfold upsertBy at hr
  split at hr
  · rcases List.mem_map.mp hr with ⟨r0, hr0, hf⟩
    by_cases hk0 : r0.1 = y.1
    · rw [if_pos hk0] at hf
      subst hf
      exact absurd hk hy
    · rw [if_neg hk0] at hf
      subst hf
      exact hst _ hr0 hk
  · rcases List.mem_append.mp hr with hr | hr
    · exact hst r hr hk
    · have := List.mem_singleton.mp hr
      subst this
      exact absurd hk hy

/-- The "every entry at key k is x" invariant survives a whole batch of
upserts at other keys. -/
lemma foldl_upsertBy_at_key_stable {σ : Type} (R : List ((String × String) × σ))
    (k : String × String) (x : (String × String) × σ) (hR : ∀ y ∈ R, y.1 ≠ k) :
    ∀ E : List ((String × String) × σ), (∀ r ∈ E, r.1 = k → r = x) →
    ∀ r ∈ R.foldl (upsertBy Prod.fst) E, r.1 = k → r = x := by
  induction R with
  | nil => intro E hE; exact hE
  | cons y R ih =>
    intro E hE
    simp only [List.foldl_cons]
    exact ih (fun z hz => hR z (List.mem_cons_of_mem _ hz)) _
      (upsertBy_fst_at_key_stable E x k hE y (hR y (List.mem_cons_self y R)))

/-- A batch of upserts never removes a key. -/
lemma foldl_upsertBy_mem_mono {σ : Type} (R : List ((String × String) × σ))
    (k : String × String) : ∀ E : List ((String × String) × σ),
    k ∈ E.map Prod.fst → k ∈ (R.foldl (upsertBy Prod.fst) E).map Prod.fst := by
  induction R with
  | nil => intro E h; exact h
  | cons y R ih =>
    intro E h
    simp only [List.foldl_cons]
    exact ih _ (upsertBy_fst_mem_mono E y k h)

/-- A batch of upserts preserves distinctness of the conflict keys. -/
lemma foldl_upsertBy_keys_nodup {σ : Type} (R : List ((String × String) × σ)) :
    ∀ E : List ((String × String) × σ), (E.map Prod.fst).Nodup →
    (((R.foldl (upsertBy Prod.fst)) E).map Prod.fst).Nodup := by
  induction R with
  | nil => intro E h; exact h
  | cons y R ih =>
    intro E h
    simp only [List.foldl_cons]
    exact ih _ (upsertBy_fst_keys_nodup E y h)

/-- Re-upserting `x` into a store whose every entry at `x`'s key already
is `x` — and which holds that key — changes nothing. -/
lemma upsertBy_fst_noop {σ : Type} (E : List ((String × String) × σ))
    (x : (String × String) × σ) (hall : ∀ r ∈ E, r.1 = x.1 → r = x)
    (hmem : x.1 ∈ E.map Prod.fst) : upsertBy Prod.fst E x = E := by
  unfold upsertBy
  have hany : E.any (fun r => decide (r.1 = x.1)) = true := by
    rcases List.mem_map.mp hmem with ⟨r, hr, hfst⟩
    exact List.any_eq_true.mpr ⟨r, hr, decide_eq_true hfst⟩
  rw [if_pos hany]
  conv_rhs => rw [← List.map_id E]
  apply List.map_congr_left
  intro r hr
  by_cases hk : r.1 = x.1
  · rw [if_pos hk]
    exact (hall r hr hk).symm
  · rw [if_neg hk]
    rfl

/-- Key idempotency fact: a batch of keyed upserts with pairwise distinct
keys is idempotent on the projected store. -/
lemma foldl_upsertBy_idem {σ : Type} (R : List ((String × String) × σ))
    (hnd : (R.map Prod.fst).Nodup) : ∀ E : List ((String × String) × σ),
    R.foldl (upsertBy Prod.fst) (R.foldl (upsertBy Prod.fst) E)
      = R.foldl (upsertBy Prod.fst) E := by
  induction R with
  | nil => intro E; rfl
  | cons x R ih =>
    intro E
    simp only [List.map_cons, List.nodup_cons] at hnd
    have hxR : ∀ y ∈ R, y.1 ≠ x.1 := by
      intro y hy heq
      exact hnd.1 (heq ▸ List.mem_map_of_mem Prod.fst hy)
    simp only [List.foldl_cons]
    have hstep : upsertBy Prod.fst (R.foldl (upsertBy Prod.fst) (upsertBy Prod.fst E x)) x
        = R.foldl (upsertBy Prod.fst) (upsertBy Prod.fst E x) := by
      apply upsertBy_fst_noop
      · exact foldl_upsertBy_at_key_stable R x.1 x hxR _ (upsertBy_fst_at_key E x)
      · exact foldl_upsertBy_mem_mono R x.1 _ (upsertBy_fst_mem_self E x)
    rw [hstep]
    exact ih hnd.2 (upsertBy Prod.fst E x)

/-- Strip the surrogate id and the update timestamp from a customer row:
the projection under which idempotency is stated. -/
def stripC (r : CustomerRow) : CustomerRow := { r with id := "", updated_at := "" }

/-- Strip the surrogate id and the update timestamp from a product row. -/
def stripP (r : ProductRow) : ProductRow := { r with id := "", updated_at := "" }

/-- Strip the surrogate id and the update timestamp from an order row. -/
def stripO (r : OrderRow) : OrderRow := { r with id := "", updated_at := "" }

/-- A customer row paired with its conflict key, stripped. -/
def projC (r : CustomerRow) : (String × String) × CustomerRow := (keyC r, stripC r)

/-- A product row paired with its conflict key, stripped. -/
def projP (r : ProductRow) : (String × String) × ProductRow := (keyP r, stripP r)

/-- An order row paired with its conflict key, stripped. -/
def projO (r : OrderRow) : (String × String) × OrderRow := (keyO r, stripO r)

/-- The conflict key and stripped fields a raw customer record determines
— independent of the uuid counter and of the run's timestamp. -/
def custProj (tid : String) (c : RawCustomer) : (String × String) × CustomerRow :=
  ((tid, toString ((c.id).getD 0)),
   { id := ""
     tenant_id := tid
     shopify_id := toString ((c.id).getD 0)
     first_name := jsOrString c.first_name ""
     last_name := jsOrString c.last_name ""
     email := jsOrString c.email ""
     total_spent := parseFloatOr0 c.total_spent
     orders_count := jsOrNat c.orders_count 0
     created_at := c.created_at
     updated_at := "" })

/-- The conflict key and stripped fields a raw product record determines. -/
def prodProj (tid : String) (p : RawProduct) : (String × String) × ProductRow :=
  ((tid, toString ((p.id).getD 0)),
   { id := ""
     tenant_id := tid
     shopify_id := toString ((p.id).getD 0)
     title := p.title
     vendor := jsOrString p.vendor ""
     product_type := jsOrString p.product_type ""
     price := parseFloatOr0 ((p.variants.head?).bind (fun v => v.price))
     inventory_quantity := jsOrInt ((p.variants.head?).bind (fun v => v.inventory_quantity)) 0
     created_at := p.created_at
     updated_at := "" })

/-- The conflict key and stripped fields a raw order record determines. -/
def ordProj (tid : String) (o : RawOrder) : (String × String) × OrderRow :=
  ((tid, toString ((o.id).getD 0)),
   { id := ""
     tenant_id := tid
     shopify_id := toString ((o.id).getD 0)
     customer_id := o.customer.map (fun c => toString c.id)
     total_price := parseFloatOr0 o.total_price
     currency := jsOrString o.currency "USD"
     order_status := jsOrString o.financial_status "pending"
     created_at := o.created_at
     updated_at := "" })

/-- Mapping before testing `any`. -/
lemma any_map_comp {α β : Type} (l : List α) (f : α → β) (p : β → Bool) :
    (l.map f).any p = l.any (fun a => p (f a)) := by
  induction l with
  | nil => rfl
  | cons a l ih => simp [List.any_cons, ih]

/-- A keyed upsert commutes with any projection that preserves the key. -/
lemma upsertBy_map_proj {ρ σ : Type} (key : ρ → String × String)
    (proj : ρ → (String × String) × σ) (hk : ∀ r, (proj r).1 = key r)
    (S : List ρ) (row : ρ) :
    (upsertBy key S row).map proj = upsertBy Prod.fst (S.map proj) (proj row) := by
  have hfun : (fun r => decide ((proj r).1 = (proj row).1))
      = fun r : ρ => decide (key r = key row) := by
    funext r
    simp only [hk]
  unfold upsertBy
  rw [any_map_comp, hfun]
  split
  · rw [List.map_map, List.map_map]
    apply List.map_congr_left
    intro r _
    by_cases hkr : key r = key row
    · simp only [Function.comp]
      rw [if_pos hkr, if_pos (by rw [hk r, hk row]; exact hkr)]
    · simp only [Function.comp]
      rw [if_neg hkr, if_neg (by rw [hk r, hk row]; exact hkr)]
  · simp

/-- Projected effect of the customers loop: a fold of keyed upserts of
the records' projections — independent of the uuid counter and the run
timestamp — provided every record is well formed and no upsert fails. -/
lemma runCustomerLoop_store_proj (env : Env) (t : Tenant) (tm : String)
    (cs : List RawCustomer) (hnf : ∀ k a b, env.upsertFails k a b = false) :
    ∀ s : Sys, (∀ c ∈ cs, (c.id).isSome = true) →
    ((runCustomerLoop env t tm cs s).1.store.customers).map projC
      = (cs.map (custProj t.id)).foldl (upsertBy Prod.fst)
          ((s.store.customers).map projC) := by
  induction cs with
  | nil => intro s _; rfl
  | cons c rest ih =>
    intro s h
    obtain ⟨n, hn⟩ := Option.isSome_iff_exists.mp (h c (List.mem_cons_self c rest))
    have hrest : ∀ c ∈ rest, (c.id).isSome = true :=
      fun c hc => h c (List.mem_cons_of_mem _ hc)
    simp only [runCustomerLoop, customerData, hn, hnf, Bool.false_eq_true, if_false]
    rw [ih _ hrest]
    simp only [List.map_cons, List.foldl_cons]
    congr 1
    rw [upsertBy_map_proj keyC projC (fun r => rfl)]
    congr 1
    simp [projC, keyC, stripC, custProj, hn]

/-- Projected effect of the products loop. -/
lemma runProductLoop_store_proj (env : Env) (t : Tenant) (tm : String)
    (ps : List RawProduct) (hnf : ∀ k a b, env.upsertFails k a b = false) :
    ∀ s : Sys, (∀ p ∈ ps, (p.id).isSome = true) →
    ((runProductLoop env t tm ps s).1.store.products).map projP
      = (ps.map (prodProj t.id)).foldl (upsertBy Prod.fst)
          ((s.store.products).map projP) := by
  induction ps with
  | nil => intro s _; rfl
  | cons p rest ih =>
    intro s h
    obtain ⟨n, hn⟩ := Option.isSome_iff_exists.mp (h p (List.mem_cons_self p rest))
    have hrest : ∀ p ∈ rest, (p.id).isSome = true :=
      fun p hp => h p (List.mem_cons_of_mem _ hp)
    simp only [runProductLoop, productData, hn, hnf, Bool.false_eq_true, if_false]
    rw [ih _ hrest]
    simp only [List.map_cons, List.foldl_cons]
    congr 1
    rw [upsertBy_map_proj keyP projP (fun r => rfl)]
    congr 1
    simp [projP, keyP, stripP, prodProj, hn]

/-- Projected effect of the orders loop. -/
lemma runOrderLoop_store_proj (env : Env) (t : Tenant) (tm : String)
    (os : List RawOrder) (hnf : ∀ k a b, env.upsertFails k a b = false) :
    ∀ s : Sys, (∀ o ∈ os, (o.id).isSome = true) →
    ((runOrderLoop env t tm os s).1.store.orders).map projO
      = (os.map (ordProj t.id)).foldl (upsertBy Prod.fst)
          ((s.store.orders).map projO) := by
  induction os with
  | nil => intro s _; rfl
  | cons o rest ih =>
    intro s h
    obtain ⟨n, hn⟩ := Option.isSome_iff_exists.mp (h o (List.mem_cons_self o rest))
    have hrest : ∀ o ∈ rest, (o.id).isSome = true :=
      fun o ho => h o (List.mem_cons_of_mem _ ho)
    simp only [runOrderLoop, orderData, hn, hnf, Bool.false_eq_true, if_false]
    rw [ih _ hrest]
    simp only [List.map_cons, List.foldl_cons]
    congr 1
    rw [upsertBy_map_proj keyO projO (fun r => rfl)]
    congr 1
    simp [projO, keyO, stripO, ordProj, hn]

/-- The customer reconciler's resulting state is the loop's state. -/
lemma syncCustomers_state (env : Env) (t : Tenant) (tm : String) (s : Sys)
    (cs : List RawCustomer) (henv : env.custFetch = .ok cs) :
    (syncCustomers env t tm s).1 = (runCustomerLoop env t tm cs s).1 := by
  rcases hr : runCustomerLoop env t tm cs s with ⟨s', es, b⟩
  cases b <;> simp [syncCustomers, henv, hr]

/-- The product reconciler's resulting state is the loop's state. -/
lemma syncProducts_state (env : Env) (t : Tenant) (tm : String) (s : Sys)
    (ps : List RawProduct) (henv : env.prodFetch = .ok ps) :
    (syncProducts env t tm s).1 = (runProductLoop env t tm ps s).1 := by
  rcases hr : runProductLoop env t tm ps s with ⟨s', es, b⟩
  cases b <;> simp [syncProducts, henv, hr]

/-- The order reconciler's resulting state is the loop's state. -/
lemma syncOrders_state (env : Env) (t : Tenant) (tm : String) (s : Sys)
    (os : List RawOrder) (henv : env.ordFetch = .ok os) :
    (syncOrders env t tm s).1 = (runOrderLoop env t tm os s).1 := by
  rcases hr : runOrderLoop env t tm os s with ⟨s', es, b⟩
  cases b <;> simp [syncOrders, henv, hr]

/-- A found tenant's sync state is the three reconcilers composed. -/
lemma syncShopifyData_state (env : Env) (tbl : List Tenant) (tid tm : String)
    (s : Sys) (t : Tenant)
    (hfind : tbl.find? (fun u => decide (u.id = tid)) = some t) :
    (syncShopifyData env tbl tid tm s).1
      = (syncOrders env t tm (syncProducts env t tm (syncCustomers env t tm s).1).1).1 := by
  simp [syncShopifyData, hfind]

/-- Projected customers table of one full tenant sync. -/
lemma syncShopifyData_customers_proj (env : Env) (tbl : List Tenant)
    (tid tm : String) (s : Sys) (t : Tenant) (cs : List RawCustomer)
    (hfind : tbl.find? (fun u => decide (u.id = tid)) = some t)
    (henvC : env.custFetch = .ok cs) (hwfC : ∀ c ∈ cs, (c.id).isSome = true)
    (hnf : ∀ k a b, env.upsertFails k a b = false) :
    (((syncShopifyData env tbl tid tm s).1).store.customers).map projC
      = (cs.map (custProj t.id)).foldl (upsertBy Prod.fst)
          ((s.store.customers).map projC) := by
  rw [syncShopifyData_state env tbl tid tm s t hfind, syncOrders_customers,
    syncProducts_customers, syncCustomers_state env t tm s cs henvC]
  exact runCustomerLoop_store_proj env t tm cs hnf s hwfC

/-- Projected products table of one full tenant sync. -/
lemma syncShopifyData_products_proj (env : Env) (tbl : List Tenant)
    (tid tm : String) (s : Sys) (t : Tenant) (ps : List RawProduct)
    (hfind : tbl.find? (fun u => decide (u.id = tid)) = some t)
    (henvP : env.prodFetch = .ok ps) (hwfP : ∀ p ∈ ps, (p.id).isSome = true)
    (hnf : ∀ k a b, env.upsertFails k a b = false) :
    (((syncShopifyData env tbl tid tm s).1).store.products).map projP
      = (ps.map (prodProj t.id)).foldl (upsertBy Prod.fst)
          ((s.store.products).map projP) := by
  rw [syncShopifyData_state env tbl tid tm s t hfind, syncOrders_products,
    syncProducts_state env t tm _ ps henvP,
    runProductLoop_store_proj env t tm ps hnf _ hwfP, syncCustomers_products]

/-- Projected orders table of one full tenant sync. -/
lemma syncShopifyData_orders_proj (env : Env) (tbl : List Tenant)
    (tid tm : String) (s : Sys) (t : Tenant) (os : List RawOrder)
    (hfind : tbl.find? (fun u => decide (u.id = tid)) = some t)
    (henvO : env.ordFetch = .ok os) (hwfO : ∀ o ∈ os, (o.id).isSome = true)
    (hnf : ∀ k a b, env.upsertFails k a b = false) :
    (((syncShopifyData env tbl tid tm s).1).store.orders).map projO
      = (os.map (ordProj t.id)).foldl (upsertBy Prod.fst)
          ((s.store.orders).map projO) := by
  rw [syncShopifyData_state env tbl tid tm s t hfind,
    syncOrders_state env t tm _ os henvO,
    runOrderLoop_store_proj env t tm os hnf _ hwfO,
    syncProducts_orders, syncCustomers_orders]

/-- Fixture environment returning exactly one customer and nothing else. -/
def envOneCustomer : Env :=
  { connTestOk := true
    custFetch := .ok [rawCust1]
    prodFetch := .ok []
    ordFetch := .ok []
    upsertFails := noFailOracle }

/-- Strip only the update timestamp of a customer row, keeping every
other field — the claim allows only this field to change. -/
def stripUpdatedC (r : CustomerRow) : CustomerRow := { r with updated_at := "" }

/-- C1 counterexample: syncing the same single-customer vendor data twice
keeps the row count and the conflict keys, but the surrogate `id` column
— a field other than the update timestamp — changes from "uuid-0" to
"uuid-1", because every upsert payload carries a fresh `uuidv4()` and the
conflict update overwrites all supplied columns. This refutes "on the
second run every field of each existing row other than the update
timestamp is unchanged". -/
theorem c1_counterexample :
    ((syncShopifyData envOneCustomer [tenantD] "d-tenant" "T2"
        (syncShopifyData envOneCustomer [tenantD] "d-tenant" "T1" sysEmpty).1).1.store.customers).length
      = ((syncShopifyData envOneCustomer [tenantD] "d-tenant" "T1"
          sysEmpty).1.store.customers).length ∧
    ((syncShopifyData envOneCustomer [tenantD] "d-tenant" "T2"
        (syncShopifyData envOneCustomer [tenantD] "d-tenant" "T1" sysEmpty).1).1.store.customers).map keyC
      = ((syncShopifyData envOneCustomer [tenantD] "d-tenant" "T1"
          sysEmpty).1.store.customers).map keyC ∧
    ((syncShopifyData envOneCustomer [tenantD] "d-tenant" "T1"
        sysEmpty).1.store.customers).map (fun r => r.id) = ["uuid-0"] ∧
    ((syncShopifyData envOneCustomer [tenantD] "d-tenant" "T2"
        (syncShopifyData envOneCustomer [tenantD] "d-tenant" "T1" sysEmpty).1).1.store.customers).map
        (fun r => r.id) = ["uuid-1"] ∧
    ((syncShopifyData envOneCustomer [tenantD] "d-tenant" "T2"
        (syncShopifyData envOneCustomer [tenantD] "d-tenant" "T1" sysEmpty).1).1.store.customers).map
        stripUpdatedC
      ≠ ((syncShopifyData envOneCustomer [tenantD] "d-tenant" "T1"
          sysEmpty).1.store.customers).map stripUpdatedC := by
  exact ⟨by decide, by decide, by decide, by decide, by decide⟩

/-- C1 (amended). Syncing identical vendor data twice for the same
tenant — distinct external ids per entity kind, every upsert accepted —
is idempotent up to the update timestamp and the locally generated
surrogate row id (which every upsert regenerates): the second run keeps
the row count of each table, keeps the conflict keys with no duplicate
(tenant id, external id) pair, and leaves every other field of every row
unchanged. -/
theorem c1_sync_idempotent_amended (env : Env) (tbl : List Tenant)
    (tid tm1 tm2 : String) (s : Sys) (t : Tenant) (cs : List RawCustomer)
    (ps : List RawProduct) (os : List RawOrder)
    (hfind : tbl.find? (fun u => decide (u.id = tid)) = some t)
    (henvC : env.custFetch = .ok cs) (hwfC : ∀ c ∈ cs, (c.id).isSome = true)
    (hndC : (cs.map (fun c => toString ((c.id).getD 0))).Nodup)
    (henvP : env.prodFetch = .ok ps) (hwfP : ∀ p ∈ ps, (p.id).isSome = true)
    (hndP : (ps.map (fun p => toString ((p.id).getD 0))).Nodup)
    (henvO : env.ordFetch = .ok os) (hwfO : ∀ o ∈ os, (o.id).isSome = true)
    (hndO : (os.map (fun o => toString ((o.id).getD 0))).Nodup)
    (hnf : ∀ k a b, env.upsertFails k a b = false)
    (hndSC : ((s.store.customers).map keyC).Nodup)
    (hndSP : ((s.store.products).map keyP).Nodup)
    (hndSO : ((s.store.orders).map keyO).Nodup) :
    (((syncShopifyData env tbl tid tm2
          (syncShopifyData env tbl tid tm1 s).1).1.store.customers).map projC
        = (((syncShopifyData env tbl tid tm1 s).1.store.customers).map projC)) ∧
    (((syncShopifyData env tbl tid tm2
          (syncShopifyData env tbl tid tm1 s).1).1.store.products).map projP
        = (((syncShopifyData env tbl tid tm1 s).1.store.products).map projP)) ∧
    (((syncShopifyData env tbl tid tm2
          (syncShopifyData env tbl tid tm1 s).1).1.store.orders).map projO
        = (((syncShopifyData env tbl tid tm1 s).1.store.orders).map projO)) ∧
    (((syncShopifyData env tbl tid tm2
          (syncShopifyData env tbl tid tm1 s).1).1.store.customers).length
        = ((syncShopifyData env tbl tid tm1 s).1.store.customers).length) ∧
    (((syncShopifyData env tbl tid tm2
          (syncShopifyData env tbl tid tm1 s).1).1.store.products).length
        = ((syncShopifyData env tbl tid tm1 s).1.store.products).length) ∧
    (((syncShopifyData env tbl tid tm2
          (syncShopifyData env tbl tid tm1 s).1).1.store.orders).length
        = ((syncShopifyData env tbl tid tm1 s).1.store.orders).length) ∧
    ((((syncShopifyData env tbl tid tm1 s).1.store.customers).map keyC).Nodup ∧
      (((syncShopifyData env tbl tid tm2
          (syncShopifyData env tbl tid tm1 s).1).1.store.customers).map keyC).Nodup) ∧
    ((((syncShopifyData env tbl tid tm1 s).1.store.products).map keyP).Nodup ∧
      (((syncShopifyData env tbl tid tm2
          (syncShopifyData env tbl tid tm1 s).1).1.store.products).map keyP).Nodup) ∧
    ((((syncShopifyData env tbl tid tm1 s).1.store.orders).map keyO).Nodup ∧
      (((syncShopifyData env tbl tid tm2
          (syncShopifyData env tbl tid tm1 s).1).1.store.orders).map keyO).Nodup) := by
  have hinjT : Function.Injective (fun sid : String => (t.id, sid)) := by
    intro a b hab
    injection hab with h1 h2
  have hndRC : ((cs.map (custProj t.id)).map Prod.fst).Nodup := by
    have hk : (cs.map (custProj t.id)).map Prod.fst
        = (cs.map (fun c => toString ((c.id).getD 0))).map (fun sid => (t.id, sid)) := by
      simp only [List.map_map]
      rfl
    rw [hk]
    exact hndC.map hinjT
  have hndRP : ((ps.map (prodProj t.id)).map Prod.fst).Nodup := by
    have hk : (ps.map (prodProj t.id)).map Prod.fst
        = (ps.map (fun p => toString ((p.id).getD 0))).map (fun sid => (t.id, sid)) := by
      simp only [List.map_map]
      rfl
    rw [hk]
    exact hndP.map hinjT
  have hndRO : ((os.map (ordProj t.id)).map Prod.fst).Nodup := by
    have hk : (os.map (ordProj t.id)).map Prod.fst
        = (os.map (fun o => toString ((o.id).getD 0))).map (fun sid => (t.id, sid)) := by
      simp only [List.map_map]
      rfl
    rw [hk]
    exact hndO.map hinjT
  have hC1 := syncShopifyData_customers_proj env tbl tid tm1 s t cs hfind henvC hwfC hnf
  have hC2 := syncShopifyData_customers_proj env tbl tid tm2
    (syncShopifyData env tbl tid tm1 s).1 t cs hfind henvC hwfC hnf
  have hP1 := syncShopifyData_products_proj env tbl tid tm1 s t ps hfind henvP hwfP hnf
  have hP2 := syncShopifyData_products_proj env tbl tid tm2
    (syncShopifyData env tbl tid tm1 s).1 t ps hfind henvP hwfP hnf
  have hO1 := syncShopifyData_orders_proj env tbl tid tm1 s t os hfind henvO hwfO hnf
  have hO2 := syncShopifyData_orders_proj env tbl tid tm2
    (syncShopifyData env tbl tid tm1 s).1 t os hfind henvO hwfO hnf
  have hCeq : (((syncShopifyData env tbl tid tm2
        (syncShopifyData env tbl tid tm1 s).1).1.store.customers).map projC
      = (((syncShopifyData env tbl tid tm1 s).1.store.customers).map projC)) := by
    rw [hC2, hC1, foldl_upsertBy_idem _ hndRC]
  have hPeq : (((syncShopifyData env tbl tid tm2
        (syncShopifyData env tbl tid tm1 s).1).1.store.products).map projP
      = (((syncShopifyData env tbl tid tm1 s).1.store.products).map projP)) := by
    rw [hP2, hP1, foldl_upsertBy_idem _ hndRP]
  have hOeq : (((syncShopifyData env tbl tid tm2
        (syncShopifyData env tbl tid tm1 s).1).1.store.orders).map projO
      = (((syncShopifyData env tbl tid tm1 s).1.store.orders).map projO)) := by
    rw [hO2, hO1, foldl_upsertBy_idem _ hndRO]
  have hndA1C : (((syncShopifyData env tbl tid tm1 s).1.store.customers).map keyC).Nodup := by
    have hk : ((syncShopifyData env tbl tid tm1 s).1.store.customers).map keyC
        = (((syncShopifyData env tbl tid tm1 s).1.store.customers).map projC).map Prod.fst := by
      rw [List.map_map]
      rfl
    rw [hk, hC1]
    refine foldl_upsertBy_keys_nodup _ _ ?_
    have hkE : ((s.store.customers).map projC).map Prod.fst = (s.store.customers).map keyC := by
      rw [List.map_map]
      rfl
    rw [hkE]
    exact hndSC
  have hndA1P : (((syncShopifyData env tbl tid tm1 s).1.store.products).map keyP).Nodup := by
    have hk : ((syncShopifyData env tbl tid tm1 s).1.store.products).map keyP
        = (((syncShopifyData env tbl tid tm1 s).1.store.products).map projP).map Prod.fst := by
      rw [List.map_map]
      rfl
    rw [hk, hP1]
    refine foldl_upsertBy_keys_nodup _ _ ?_
    have hkE : ((s.store.products).map projP).map Prod.fst = (s.store.products).map keyP := by
      rw [List.map_map]
      rfl
    rw [hkE]
    exact hndSP
  have hndA1O : (((syncShopifyData env tbl tid tm1 s).1.store.orders).map keyO).Nodup := by
    have hk : ((syncShopifyData env tbl tid tm1 s).1.store.orders).map keyO
        = (((syncShopifyData env tbl tid tm1 s).1.store.orders).map projO).map Prod.fst := by
      rw [List.map_map]
      rfl
    rw [hk, hO1]
    refine foldl_upsertBy_keys_nodup _ _ ?_
    have hkE : ((s.store.orders).map projO).map Prod.fst = (s.store.orders).map keyO := by
      rw [List.map_map]
      rfl
    rw [hkE]
    exact hndSO
  have hndA2C : (((syncShopifyData env tbl tid tm2
      (syncShopifyData env tbl tid tm1 s).1).1.store.customers).map keyC).Nodup := by
    have hk : ((syncShopifyData env tbl tid tm2
          (syncShopifyData env tbl tid tm1 s).1).1.store.customers).map keyC
        = (((syncShopifyData env tbl tid tm2
            (syncShopifyData env tbl tid tm1 s).1).1.store.customers).map projC).map Prod.fst := by
      rw [List.map_map]
      rfl
    have hk1 : ((syncShopifyData env tbl tid tm1 s).1.store.customers).map keyC
        = (((syncShopifyData env tbl tid tm1 s).1.store.customers).map projC).map Prod.fst := by
      rw [List.map_map]
      rfl
    rw [hk, hCeq, ← hk1]
    exact hndA1C
  have hndA2P : (((syncShopifyData env tbl tid tm2
      (syncShopifyData env tbl tid tm1 s).1).1.store.products).map keyP).Nodup := by
    have hk : ((syncShopifyData env tbl tid tm2
          (syncShopifyData env tbl tid tm1 s).1).1.store.products).map keyP
        = (((syncShopifyData env tbl tid tm2
            (syncShopifyData env tbl tid tm1 s).1).1.store.products).map projP).map Prod.fst := by
      rw [List.map_map]
      rfl
    have hk1 : ((syncShopifyData env tbl tid tm1 s).1.store.products).map keyP
        = (((syncShopifyData env tbl tid tm1 s).1.store.products).map projP).map Prod.fst := by
      rw [List.map_map]
      rfl
    rw [hk, hPeq, ← hk1]
    exact hndA1P
  have hndA2O : (((syncShopifyData env tbl tid tm2
      (syncShopifyData env tbl tid tm1 s).1).1.store.orders).map keyO).Nodup := by
    have hk : ((syncShopifyData env tbl tid tm2
          (syncShopifyData env tbl tid tm1 s).1).1.store.orders).map keyO
        = (((syncShopifyData env tbl tid tm2
            (syncShopifyData env tbl tid tm1 s).1).1.store.orders).map projO).map Prod.fst := by
      rw [List.map_map]
      rfl
    have hk1 : ((syncShopifyData env tbl tid tm1 s).1.store.orders).map keyO
        = (((syncShopifyData env tbl tid tm1 s).1.store.orders).map projO).map Prod.fst := by
      rw [List.map_map]
      rfl
    rw [hk, hOeq, ← hk1]
    exact hndA1O
  refine ⟨hCeq, hPeq, hOeq, ?_, ?_, ?_, ⟨hndA1C, hndA2C⟩, ⟨hndA1P, hndA2P⟩, ⟨hndA1O, hndA2O⟩⟩
  · have := congrArg List.length hCeq
    simpa using this
  · have := congrArg List.length hPeq
    simpa using this
  · have := congrArg List.length hOeq
    simpa using this

/-- C1 witness: the specification scenario — two customers, one product
with one variant, one order — synced twice for tenant `d-tenant`:
projected tables, row counts and key distinctness agree between the two
runs. -/
theorem c1_sync_idempotent_amended_witness :
    (envD.custFetch = .ok [rawCust1, rawCust2] ∧
      envD.prodFetch = .ok [rawProd9] ∧ envD.ordFetch = .ok [rawOrder100] ∧
      ([tenantD].find? (fun u => decide (u.id = "d-tenant")) = some tenantD)) ∧
    (((syncShopifyData envD [tenantD] "d-tenant" "T2"
          (syncShopifyData envD [tenantD] "d-tenant" "T1" sysEmpty).1).1.store.customers).map projC
        = (((syncShopifyData envD [tenantD] "d-tenant" "T1"
            sysEmpty).1.store.customers).map projC)) ∧
    (((syncShopifyData envD [tenantD] "d-tenant" "T2"
          (syncShopifyData envD [tenantD] "d-tenant" "T1" sysEmpty).1).1.store.customers).length
        = ((syncShopifyData envD [tenantD] "d-tenant" "T1"
            sysEmpty).1.store.customers).length) ∧
    ((((syncShopifyData envD [tenantD] "d-tenant" "T1"
        sysEmpty).1.store.customers).map keyC).Nodup) :=
  ⟨⟨rfl, rfl, rfl, by decide⟩,
   (c1_sync_idempotent_amended envD [tenantD] "d-tenant" "T1" "T2" sysEmpty tenantD
      [rawCust1, rawCust2] [rawProd9] [rawOrder100] (by decide) rfl (by decide)
      (by decide) rfl (by decide) (by decide) rfl (by decide) (by decide)
      (fun k a b => rfl) (by decide) (by decide) (by decide)).1,
   (c1_sync_idempotent_amended envD [tenantD] "d-tenant" "T1" "T2" sysEmpty tenantD
      [rawCust1, rawCust2] [rawProd9] [rawOrder100] (by decide) rfl (by decide)
      (by decide) rfl (by decide) (by decide) rfl (by decide) (by decide)
      (fun k a b => rfl) (by decide) (by decide) (by decide)).2.2.2.1,
   ((c1_sync_idempotent_amended envD [tenantD] "d-tenant" "T1" "T2" sysEmpty tenantD
      [rawCust1, rawCust2] [rawProd9] [rawOrder100] (by decide) rfl (by decide)
      (by decide) rfl (by decide) (by decide) rfl (by decide) (by decide)
      (fun k a b => rfl) (by decide) (by decide) (by decide)).2.2.2.2.2.2.1).1⟩

/-- C9. Each reconciler reports, as its `Synced N` result, the number of
records observed in the fetched batch — for every store backend, i.e.
independently of how many of the individual upserts succeed. -/
theorem c9_count_observed (env : Env) (t : Tenant) (tm : String) (s : Sys) :
    (∀ cs, env.custFetch = .ok cs → (∀ c ∈ cs, (c.id).isSome = true) →
      Event.syncedCount .customer cs.length ∈ (syncCustomers env t tm s).2) ∧
    (∀ ps, env.prodFetch = .ok ps → (∀ p ∈ ps, (p.id).isSome = true) →
      Event.syncedCount .product ps.length ∈ (syncProducts env t tm s).2) ∧
    (∀ os, env.ordFetch = .ok os → (∀ o ∈ os, (o.id).isSome = true) →
      Event.syncedCount .order os.length ∈ (syncOrders env t tm s).2) := by
  refine ⟨fun cs henv hwf => ?_, fun ps henv hwf => ?_, fun os henv hwf => ?_⟩
  · have hc := runCustomerLoop_completes env t tm cs s hwf
    rcases hr : runCustomerLoop env t tm cs s with ⟨s', es, b⟩
    rw [hr] at hc; simp only at hc; subst hc
    simp [syncCustomers, henv, hr]
  · have hc := runProductLoop_completes env t tm ps s hwf
    rcases hr : runProductLoop env t tm ps s with ⟨s', es, b⟩
    rw [hr] at hc; simp only at hc; subst hc
    simp [syncProducts, henv, hr]
  · have hc := runOrderLoop_completes env t tm os s hwf
    rcases hr : runOrderLoop env t tm os s with ⟨s', es, b⟩
    rw [hr] at hc; simp only at hc; subst hc
    simp [syncOrders, henv, hr]

/-- C9 witness: a backend that rejects the upsert of customer 1 still
makes the customer reconciler report the full batch size 2 (while only
one row lands in the store, and the rejection is logged). -/
theorem c9_count_observed_witness :
    (Env.mk true (.ok [rawCust1, rawCust2]) (.ok []) (.ok [])
        (fun k _ sid => k = EntityKind.customer ∧ sid = "1")).custFetch
        = .ok [rawCust1, rawCust2] ∧
    (∀ c ∈ [rawCust1, rawCust2], (c.id).isSome = true) ∧
    Event.syncedCount .customer 2 ∈
      (syncCustomers
        (Env.mk true (.ok [rawCust1, rawCust2]) (.ok []) (.ok [])
          (fun k _ sid => k = EntityKind.customer ∧ sid = "1"))
        tenantD "2024-02-01" sysEmpty).2 ∧
    Event.upsertError .customer "1" ∈
      (syncCustomers
        (Env.mk true (.ok [rawCust1, rawCust2]) (.ok []) (.ok [])
          (fun k _ sid => k = EntityKind.customer ∧ sid = "1"))
        tenantD "2024-02-01" sysEmpty).2 ∧
    (syncCustomers
        (Env.mk true (.ok [rawCust1, rawCust2]) (.ok []) (.ok [])
          (fun k _ sid => k = EntityKind.customer ∧ sid = "1"))
        tenantD "2024-02-01" sysEmpty).1.store.customers.length = 1 :=
  ⟨rfl, by decide,
    ((c9_count_observed _ tenantD "2024-02-01" sysEmpty).1
      [rawCust1, rawCust2] rfl (by decide)),
    by decide, by decide⟩

/-- C8. The stored price and inventory quantity of a product row come
from the first element of the raw record's variants list; a product with
no variants stores price 0 and quantity 0. -/
theorem c8_product_first_variant (g : Nat) (tid tm : String) (p : RawProduct)
    (row : ProductRow) (h : productData g tid tm p = some row) :
    (p.variants = [] → row.price = 0 ∧ row.inventory_quantity = 0) ∧
    (∀ v vs, p.variants = v :: vs →
      row.price = parseFloatOr0 v.price ∧
      row.inventory_quantity = jsOrInt v.inventory_quantity 0) := by
  rcases hp : p.id with _ | pid
  · simp [productData, hp] at h
  · simp only [productData, hp, Option.some.injEq] at h
    subst h
    constructor
    · intro hv; simp [hv, parseFloatOr0, jsOrInt]
    · intro v vs hv; simp [hv]

/-- C8 witness: product 9's single variant (price 12.50, quantity 3) is
stored as price 12.50 and quantity 3; the variant-less product 10 stores
price 0 and quantity 0. -/
theorem c8_product_first_variant_witness :
    (productData 0 "d-tenant" "2024-02-01" rawProdNoVariants).isSome = true ∧
    (productData 1 "d-tenant" "2024-02-01" rawProd9).isSome = true ∧
    (∀ row, productData 0 "d-tenant" "2024-02-01" rawProdNoVariants = some row →
      row.price = 0 ∧ row.inventory_quantity = 0) ∧
    (∀ row, productData 1 "d-tenant" "2024-02-01" rawProd9 = some row →
      row.price = mkRat 25 2 ∧ row.inventory_quantity = 3) := by
  refine ⟨by decide, by decide, fun row h => ?_, fun row h => ?_⟩
  · exact (c8_product_first_variant 0 "d-tenant" "2024-02-01" rawProdNoVariants row h).1 rfl
  · have := (c8_product_first_variant 1 "d-tenant" "2024-02-01" rawProd9 row h).2
      rawVariant1 [] rfl
    simpa [rawVariant1, parseFloatOr0, jsOrInt] using this

/-- C10. An order with no customer object stores `customer_id` as absent
(`null`), not as a default string; an order with a customer stores the
string form of that customer's vendor id; and the stored value is not
validated against the customers table — the orders written are the same
whatever the customers table holds. -/
theorem c10_order_customer_reference :
    (∀ (g : Nat) (tid tm : String) (o : RawOrder) (row : OrderRow),
      orderData g tid tm o = some row →
      (o.customer = none → row.customer_id = none) ∧
      (∀ c, o.customer = some c → row.customer_id = some (toString c.id))) ∧
    (∀ (env : Env) (t : Tenant) (tm : String) (s : Sys) (cl : List CustomerRow),
      (syncOrders env t tm
          { s with store := { s.store with customers := cl } }).1.store.orders
        = (syncOrders env t tm s).1.store.orders) := by
  constructor
  · intro g tid tm o row h
    rcases ho : o.id with _ | oid
    · simp [orderData, ho] at h
    · simp only [orderData, ho, Option.some.injEq] at h
      subst h
      exact ⟨fun hc => by simp [hc], fun c hc => by simp [hc]⟩
  · intro env t tm s cl
    rcases henv : env.ordFetch with _ | os
    · simp [syncOrders, henv]
    · simp only [syncOrders, henv]
      have h := runOrderLoop_customers_independent env t tm os s cl
      rcases hr : runOrderLoop env t tm os s with ⟨s', es, b⟩
      rcases hr' : runOrderLoop env t tm os
          { s with store := { s.store with customers := cl } } with ⟨s2, es2, b2⟩
      rw [hr, hr'] at h
      cases b <;> cases b2 <;> simpa using h

/-- C10 witness: order 100 (customer 1) stores reference "1"; order 101
(no customer) stores an absent reference, also when the customers table
is nonempty versus empty. -/
theorem c10_order_customer_reference_witness :
    (∀ row, orderData 0 "d-tenant" "2024-02-01" rawOrder100 = some row →
      row.customer_id = some "1") ∧
    (∀ row, orderData 1 "d-tenant" "2024-02-01" rawOrderNoCust = some row →
      row.customer_id = none) ∧
    (syncOrders envD tenantD "2024-02-01"
        { sysEmpty with store := { sysEmpty.store with
            customers := [CustomerRow.mk "u" "d-tenant" "1" "Ann" "" "ann@d"
              (mkRat 25 2) 2 "2024-01-01" "2024-02-01"] } }).1.store.orders
      = (syncOrders envD tenantD "2024-02-01" sysEmpty).1.store.orders := by
  refine ⟨fun row h => ?_, fun row h => ?_, ?_⟩
  · have := ((c10_order_customer_reference).1 0 "d-tenant" "2024-02-01" rawOrder100 row h).2
      { id := 1 } rfl
    simpa using this
  · exact ((c10_order_customer_reference).1 1 "d-tenant" "2024-02-01" rawOrderNoCust row h).1 rfl
  · exact (c10_order_customer_reference).2 envD tenantD "2024-02-01" sysEmpty _

end Shopify
